import Mathlib

/-!
# AliPhysics QA and v0 classes: a shallow embedding

Sources embedded here:

* `PWG3/hfe/AliHFEtrdPIDqa.cxx` (threshold search, efficiency integral, result lists, merging,
  saving the thresholds, filling the histograms),
* `PWG3/hfe/AliHFEtpcPIDqa.cxx` (merging, filling the histograms, spectra),
* `PWGCF/FEMTOSCOPY/FemtoDream/AliFemtoDreamv0.cxx` (daughter assignment and information,
  Monte-Carlo origin, reset, pointing angle, decay length),
* `PWGGA/EMCALTasks/AliAnalysisTaskEMCALClusterize.h` (the data-base switches).

Conventions: `Double_t` quantities are exact rationals, `Int_t` and `Long64_t` are `Int`
(no value below comes near their bounds), a pointer that may be `NULL` is an `Option`, and a
method that dereferences `NULL` or lets an exception escape returns `none`.

The file has two parts: the definitions (Part I) and the lemmas and theorems (Part II).
-/

open Finset

/-! # Part I: definitions -/

/-! ## Framework objects (ROOT) as the QA classes see them -/

/-- The part of a `TH1` that the TRD QA class reads: `first` is `GetXaxis()->GetFirst()`,
`last` is `GetXaxis()->GetLast()`, `content ibin` is `GetBinContent(ibin)` with bin contents
taken as exact numbers, `entries` is `GetEntries()` and `binCenter ibin` is
`GetXaxis()->GetBinCenter(ibin)`. -/
structure TH1 where
  first : Int
  last : Int
  content : Int → ℚ
  entries : ℚ
  binCenter : Int → ℚ

/-- The part of a `TH2` that `AnalyseNTracklets` reads: the number of bins and the last bin of
the x axis, centre and width of the x bins, and `ProjectionY(name, imom)`. -/
structure TH2 where
  nbinsX : Nat
  lastX : Int
  binCenterX : Int → ℚ
  binWidthX : Int → ℚ
  ProjectionY : Int → TH1

/-- A `THnSparseF`, kept as the sequence of coordinate tuples it was filled with. -/
structure THnSparseF where
  fills : List (List ℚ)
deriving DecidableEq

/-- A `TGraph`: its name and its points `(x, y)`. -/
structure TGraph where
  name : String
  points : List (ℚ × ℚ)
deriving DecidableEq

/-- A `TGraphErrors`: a graph whose points also carry errors `(ex, ey)`. -/
structure TGraphErrors where
  name : String
  points : List (ℚ × ℚ)
  errors : List (ℚ × ℚ)
deriving DecidableEq

/-- A `TF1`: its name, its formula and the current values of its parameters. -/
structure TF1 where
  name : String
  formula : String
  params : List ℚ
deriving DecidableEq

/-- A `TList` holding objects of one kind, in insertion order. -/
structure TList (α : Type) where
  name : String
  objects : List α
deriving DecidableEq

/-- Method `TList::Add`: append at the end. -/
def TList.Add {α : Type} (l : TList α) (o : α) : TList α :=
  { l with objects := l.objects ++ [o] }

/-- Method `TList::FindObject(name)`: the first object carrying that name, `none` for `NULL`. -/
def TList.FindObject {α : Type} (GetName : α → String) (l : TList α) (name : String) :
    Option α :=
  l.objects.find? (fun o => GetName o == name)

/-- A point array grown on demand to hold at least `n` entries, new entries being `dflt`. -/
def padTo {α : Type} (xs : List α) (n : Nat) (dflt : α) : List α :=
  xs ++ List.replicate (n - xs.length) dflt

/-- Writing index `i` of a point array that grows on demand (`TGraph::SetPoint`). -/
def setAt {α : Type} (xs : List α) (i : Nat) (dflt v : α) : List α :=
  (padTo xs (i + 1) dflt).set i v

/-- Constructor `new TGraph(n)`: `n` points at the origin, empty name. -/
def TGraph.new (n : Nat) : TGraph := { name := "", points := List.replicate n (0, 0) }

/-- Method `TGraph::SetName`. -/
def TGraph.SetName (g : TGraph) (name : String) : TGraph := { g with name := name }

/-- Method `TGraph::SetPoint(i, x, y)`. -/
def TGraph.SetPoint (g : TGraph) (i : Nat) (x y : ℚ) : TGraph :=
  { g with points := setAt g.points i (0, 0) (x, y) }

/-- Constructor `new TGraphErrors(n)`: `n` points at the origin with zero errors, empty name. -/
def TGraphErrors.new (n : Nat) : TGraphErrors :=
  { name := "", points := List.replicate n (0, 0), errors := List.replicate n (0, 0) }

/-- Method `TGraphErrors::SetName`. -/
def TGraphErrors.SetName (g : TGraphErrors) (name : String) : TGraphErrors :=
  { g with name := name }

/-- Method `TGraphErrors::SetPoint(i, x, y)`: only the point changes. -/
def TGraphErrors.SetPoint (g : TGraphErrors) (i : Nat) (x y : ℚ) : TGraphErrors :=
  { g with points := setAt g.points i (0, 0) (x, y), errors := padTo g.errors (i + 1) (0, 0) }

/-- Method `TGraphErrors::SetPointError(i, ex, ey)`: only the errors change. -/
def TGraphErrors.SetPointError (g : TGraphErrors) (i : Nat) (ex ey : ℚ) : TGraphErrors :=
  { g with points := padTo g.points (i + 1) (0, 0),
           errors := setAt g.errors i (0, 0) (ex, ey) }

/-- A file written with `Write(name, kSingleKey)`: the file name, the key, and the object. -/
structure TFile (α : Type) where
  filename : String
  key : String
  object : α

/-- Framework calls whose code is outside these sources, taken as parameters: axis lookups
and projections of the likelihood histogram, histogram integral and scaling, histogram
addition, and the graph fit. -/
structure ROOT where
  /-- The call `h->GetAxis(axis)->FindBin(x)`. -/
  FindBin : THnSparseF → Nat → ℚ → Int
  /-- The call `h->Projection(kElectronLike, kP)` while the tracklet axis is restricted to the bin
  `binTracklets` and the species axis to the bin `binSpecies`. -/
  Projection : THnSparseF → (binTracklets binSpecies : Int) → TH2
  /-- The call `TH1::Integral()`. -/
  Integral : TH1 → ℚ
  /-- The call `TH1::Scale(c)`. -/
  Scale : TH1 → ℚ → TH1
  /-- The call `THnSparse::Add(other)`. -/
  Add : THnSparseF → Option THnSparseF → THnSparseF
  /-- The call `graph->Fit(f, "NE", "", 0, 10)`: the fitted parameter values of `f`. -/
  Fit : TGraph → TF1 → List ℚ

/-- Conversion `static_cast<Int_t>` of a `Double_t`: truncation towards zero. -/
def toInt_t (x : ℚ) : Int := Int.tdiv x.num x.den


/-! ## The TRD PID QA class -/

/-- An `AliHFEpidTRD` object, known by the name it was created with. -/
structure AliHFEpidTRD where
  name : String
deriving DecidableEq

/-- An `AliESDpid` object, known by a tag telling such objects apart. -/
structure AliESDpid where
  tag : Nat
deriving DecidableEq

/-- The data members of `AliHFEtrdPIDqa` that the embedded methods touch. -/
structure AliHFEtrdPIDqa where
  fLikeTRD : Option THnSparseF
  fQAtrack : Option THnSparseF
  fQAdEdx : Option THnSparseF
  fTRDtruncMean : Option THnSparseF
  fPionEfficiencies : Option (TList (TList TGraphErrors))
  fProtonEfficiencies : Option (TList (TList TGraphErrors))
  fKaonEfficiencies : Option (TList (TList TGraphErrors))
  fThresholds : Option (TList (TList TGraph))
  fTRDpid : Option AliHFEpidTRD
deriving DecidableEq

/-- The data members of `AliHFEcollection` (a named set of histograms). -/
structure AliHFEcollection where
  histos : List (String × THnSparseF)
deriving DecidableEq

/-- The data members of `AliHFEtpcPIDqa` that the embedded methods touch: its histogram
collection and the PID object `fESDpid` it inherits from `AliHFEdetPIDqa`. -/
structure AliHFEtpcPIDqa where
  fHistos : Option AliHFEcollection
  fESDpid : Option AliESDpid
deriving DecidableEq

/-- The objects a `TCollection` handed to `Merge` may hold, by dynamic type. -/
inductive TObject where
  | trdQA (o : AliHFEtrdPIDqa)
  | tpcQA (o : AliHFEtpcPIDqa)
  | other (className : String)
deriving DecidableEq

/-- The cast `dynamic_cast<AliHFEtrdPIDqa *>(o)`, with `none` for `NULL`. -/
def TObject.asTrdQA : TObject → Option AliHFEtrdPIDqa
  | TObject.trdQA o => some o
  | _ => none

/-- The cast `dynamic_cast<AliHFEtpcPIDqa *>(o)`, with `none` for `NULL`. -/
def TObject.asTpcQA : TObject → Option AliHFEtpcPIDqa
  | TObject.tpcQA o => some o
  | _ => none

namespace AliHFEtrdPIDqa

/-- The electron efficiencies `fgkElectronEff[kNElectronEffs]`. -/
def fgkElectronEff : List ℚ := [7/10, 3/4, 4/5, 17/20, 9/10, 19/20]

/-- Index `kSpecies` of the species axis. -/
def kSpecies : Nat := 0
/-- Index `kNTracklets` of the tracklet axis. -/
def kNTracklets : Nat := 2
/-- Species number `AliPID::kElectron`. -/
def kElectron : ℚ := 0
/-- Species number `AliPID::kPion`. -/
def kPion : ℚ := 2
/-- Species number `AliPID::kProton`. -/
def kProton : ℚ := 4

/-- The list name `Form("%dTracklets", n)`. -/
def trackletsName (n : Int) : String := toString n ++ "Tracklets"

/-- The graph name `Form("eff%d", static_cast<Int_t>(eff * 100))`. -/
def effName (eff : ℚ) : String := "eff" ++ toString (toInt_t (eff * 100))

/-- The function name `Form("thresh_%d_%d", n, static_cast<Int_t>(eff * 100))`. -/
def threshName (n : Int) (eff : ℚ) : String :=
  "thresh_" ++ toString n ++ "_" ++ toString (toInt_t (eff * 100))

/-- The body of the `for` loop of `GetThresholdBin`, started at `ibin` with the running
`integralEff` and `currentBin`; the first argument bounds the number of iterations. -/
def GetThresholdBin.loop (input : TH1) (eff : ℚ) : Nat → Int → ℚ → Int → Int
  | 0, _, _, currentBin => currentBin
  | fuel + 1, ibin, integralEff, currentBin =>
    if ibin ≥ input.first then
      let currentBin := ibin
      let integralEff := integralEff + input.content ibin
      if integralEff ≥ eff then
        -- we found the matching bin, break the loop
        currentBin
      else
        GetThresholdBin.loop input eff fuel (ibin - 1) integralEff currentBin
    else
      currentBin

/-- Method `AliHFEtrdPIDqa::GetThresholdBin`: walk from the last bin of the axis range down
to the first, adding up bin contents, and stop at the first bin where the sum reaches `eff`.
The loop body runs at most `last - first + 1` times; that many iterations and the final
failing test are allowed, so the bound is never what ends the loop. -/
def GetThresholdBin (input : TH1) (eff : ℚ) : Int :=
  GetThresholdBin.loop input eff ((input.last - input.first + 1).toNat + 1) input.last 0 0

/-- The body of the `for` loop of `CalculateEfficiency`, started at `ibin` with the running
`integralEff`. -/
def CalculateEfficiency.loop (input : TH1) : Nat → Int → ℚ → ℚ
  | 0, _, integralEff => integralEff
  | fuel + 1, ibin, integralEff =>
    if ibin ≤ input.last then
      CalculateEfficiency.loop input fuel (ibin + 1) (integralEff + input.content ibin)
    else
      integralEff

/-- What a call of `CalculateEfficiency` leaves behind: the returned `Bool_t`, the two
entries of the array `par`, and the histogram the pointer `input` refers to. -/
structure EfficiencyResult where
  ret : Bool
  par0 : ℚ
  par1 : ℚ
  input : TH1

/-- Method `AliHFEtrdPIDqa::CalculateEfficiency`: sum the contents of the bins
`threshbin .. last` into `par[0]`, set `par[1]` to zero and return `kTRUE`. The arguments
`par0` and `par1` are what the array held before the call; the histogram is only read. -/
def CalculateEfficiency (input : TH1) (threshbin : Int) (_par0 _par1 : ℚ) : EfficiencyResult :=
  let integralEff :=
    CalculateEfficiency.loop input ((input.last - threshbin + 1).toNat + 1) threshbin 0
  { ret := true, par0 := integralEff, par1 := 0, input := input }

/-- A list of graphs is a well-formed `<n>Tracklets` list when it carries that name and holds
exactly one graph per electron efficiency, named `eff70 .. eff95` in that order. -/
def IsTrackletList {α : Type} (GetName : α → String) (n : Int) (l : TList α) : Prop :=
  l.name = trackletsName n ∧
    l.objects.map GetName = ["eff70", "eff75", "eff80", "eff85", "eff90", "eff95"]

/-- The three graphs `effPi`, `effPr` and `thresholds` that one pass of the efficiency loop of
`AnalyseNTracklets` works on. -/
structure EffGraphs where
  effPi : TGraphErrors
  effPr : TGraphErrors
  thresholds : TGraph

/-- One pass of the momentum loop of `AnalyseNTracklets` (the body for one `imom`): a
momentum bin in which one of the three projections has no entries is skipped, otherwise the
threshold bin for `eff` is looked up in the normalised electron projection and the pion and
proton efficiencies above it are stored as point `imom - 1`. -/
def AnalyseNTracklets.momentumStep (root : ROOT) (likeElectron likePion likeProton : TH2)
    (eff : ℚ) (g : EffGraphs) (imom : Int) : EffGraphs :=
  let p := likeElectron.binCenterX imom
  let dp := likeElectron.binWidthX imom / 2
  let probsEl := likeElectron.ProjectionY imom
  if probsEl.entries = 0 then g else
  let probsEl := root.Scale probsEl (1 / root.Integral probsEl)
  let probsPi := likePion.ProjectionY imom
  if probsPi.entries = 0 then g else
  let probsPi := root.Scale probsPi (1 / root.Integral probsPi)
  let probsPr := likeProton.ProjectionY imom
  if probsPr.entries = 0 then g else
  let probsPr := root.Scale probsPr (1 / root.Integral probsPr)
  -- Calculate threshold we need to achieve the x% electron efficiency
  let threshbin := GetThresholdBin probsEl eff
  let thresholds := g.thresholds.SetPoint (imom - 1).toNat p (probsEl.binCenter threshbin)
  -- Calculate non-electron efficiency and error
  let noElEff := CalculateEfficiency probsPi threshbin 0 0
  let effPi := g.effPi.SetPoint (imom - 1).toNat p noElEff.par0
  let effPi := effPi.SetPointError (imom - 1).toNat dp noElEff.par1
  let noElEff := CalculateEfficiency probsPr threshbin noElEff.par0 noElEff.par1
  let effPr := g.effPr.SetPoint (imom - 1).toNat p noElEff.par0
  let effPr := effPr.SetPointError (imom - 1).toNat dp noElEff.par1
  { effPi := effPi, effPr := effPr, thresholds := thresholds }

/-- The three lists `listPions`, `listProtons` and `listThresholds` of `AnalyseNTracklets`. -/
structure EffLists where
  listPions : TList TGraphErrors
  listProtons : TList TGraphErrors
  listThresholds : TList TGraph

/-- One pass of the efficiency loop of `AnalyseNTracklets` (the body for one `ieff`): three
graphs named `eff<100*eff>` are created, added to the three lists and filled by the momentum
loop `imom = 1 .. GetLast()`. -/
def AnalyseNTracklets.efficiencyStep (root : ROOT) (likeElectron likePion likeProton : TH2)
    (l : EffLists) (eff : ℚ) : EffLists :=
  let effPi := (TGraphErrors.new likeElectron.nbinsX).SetName (effName eff)
  let effPr := (TGraphErrors.new likeElectron.nbinsX).SetName (effName eff)
  let thresholds := (TGraph.new likeElectron.nbinsX).SetName (effName eff)
  let g := ((List.range likeElectron.lastX.toNat).map (fun k => (k : Int) + 1)).foldl
    (AnalyseNTracklets.momentumStep root likeElectron likePion likeProton eff)
    { effPi := effPi, effPr := effPr, thresholds := thresholds }
  { listPions := l.listPions.Add g.effPi,
    listProtons := l.listProtons.Add g.effPr,
    listThresholds := l.listThresholds.Add g.thresholds }

/-- Method `AliHFEtrdPIDqa::AnalyseNTracklets`: project the likelihood histogram for
electrons, pions and protons at the given tracklet count, and append one list named
`<n>Tracklets` to each of `fPionEfficiencies`, `fProtonEfficiencies` and `fThresholds`.
The result is `none` when `fLikeTRD` or one of the three result lists is `NULL`
(they are dereferenced unguarded). The axis ranges set on `fLikeTRD` are undone before the
method returns, so the histogram is left as it was. -/
def AnalyseNTracklets (root : ROOT) (self : AliHFEtrdPIDqa) (nTracklets : Int) :
    Option AliHFEtrdPIDqa :=
  match self.fLikeTRD with
  | none => none
  | some fLikeTRD =>
    let binTracklets := root.FindBin fLikeTRD kNTracklets nTracklets
    let binElectrons := root.FindBin fLikeTRD kSpecies kElectron
    let binPions := root.FindBin fLikeTRD kSpecies kPion
    let binProtons := root.FindBin fLikeTRD kSpecies kProton
    let likeElectron := root.Projection fLikeTRD binTracklets binElectrons
    let likePion := root.Projection fLikeTRD binTracklets binPions
    let likeProton := root.Projection fLikeTRD binTracklets binProtons
    -- Prepare List for output
    match self.fPionEfficiencies, self.fProtonEfficiencies, self.fThresholds with
    | some pionEfficiencies, some protonEfficiencies, some thresholds =>
      let l := fgkElectronEff.foldl
        (AnalyseNTracklets.efficiencyStep root likeElectron likePion likeProton)
        { listPions := { name := trackletsName nTracklets, objects := [] },
          listProtons := { name := trackletsName nTracklets, objects := [] },
          listThresholds := { name := trackletsName nTracklets, objects := [] } }
      some { self with
        fPionEfficiencies := some (pionEfficiencies.Add l.listPions),
        fProtonEfficiencies := some (protonEfficiencies.Add l.listProtons),
        fThresholds := some (thresholds.Add l.listThresholds) }
    | _, _, _ => none

/-- The first part of `FinishAnalysis`: create the pion, proton and threshold lists that do
not exist yet. -/
def FinishAnalysis.createLists (self : AliHFEtrdPIDqa) : AliHFEtrdPIDqa :=
  let self := if self.fPionEfficiencies.isNone then
      { self with fPionEfficiencies := some { name := "pionEfficiencies", objects := [] } }
    else self
  let self := if self.fProtonEfficiencies.isNone then
      { self with fProtonEfficiencies := some { name := "protonEfficiencies", objects := [] } }
    else self
  let self := if self.fThresholds.isNone then
      { self with fThresholds := some { name := "thresholds", objects := [] } }
    else self
  self

/-- Method `AliHFEtrdPIDqa::FinishAnalysis`: create the missing result lists, then run
`AnalyseNTracklets(itr)` for `itr = 4, 5, 6`. -/
def FinishAnalysis (root : ROOT) (self : AliHFEtrdPIDqa) : Option AliHFEtrdPIDqa :=
  ([4, 5, 6] : List Int).foldlM (fun s itr => AnalyseNTracklets root s itr)
    (FinishAnalysis.createLists self)

/-- Method `AliHFEtrdPIDqa::MakeThresholds`: create the function `thresh` and fit it to the
graph; `none` when the graph pointer is `NULL` (it is dereferenced unguarded). -/
def MakeThresholds (root : ROOT) (threshist : Option TGraph) : Option TF1 :=
  match threshist with
  | none => none
  | some g =>
    let threshparam : TF1 :=
      { name := "thresh", formula := "1-[0]-[1]*x-[2]*TMath::Exp(-[3]*x)", params := [] }
    some { threshparam with params := root.Fit g threshparam }

/-- What a call of `SaveThresholdParameters` leaves behind: the messages given to `AliError`,
the functions it fitted (in the order they were made, under their final names), the output
list as it stands at the end, the file it wrote if any, and the object itself. -/
structure SaveResult where
  errors : List String
  fitted : List TF1
  outlist : Option (TList (TList TF1))
  outfile : Option (TFile (TList (TList TF1)))
  self : AliHFEtrdPIDqa

/-- The loop state of `SaveThresholdParameters`. -/
structure SaveState where
  errors : List String
  fitted : List TF1
  outlist : TList (TList TF1)

/-- One pass of the inner loop of `SaveThresholdParameters` (the body for one `ieff`): find
the graph `eff<100*eff>`, fit it and name the resulting function. The function is not added
to `lFormulas`. -/
def SaveThresholdParameters.efficiencyStep (root : ROOT) (itracklet : Int)
    (lHistos : TList TGraph) (st : SaveState) (eff : ℚ) : Option SaveState :=
  let threshhist := lHistos.FindObject TGraph.name (effName eff)
  match MakeThresholds root threshhist with
  | none => none
  | some threshparam =>
    let threshparam := { threshparam with name := threshName itracklet eff }
    some { st with fitted := st.fitted ++ [threshparam] }

/-- One pass of the outer loop of `SaveThresholdParameters` (the body for one `itracklet`). -/
def SaveThresholdParameters.trackletStep (root : ROOT) (fThresholds : TList (TList TGraph))
    (st : SaveState) (itracklet : Int) : Option SaveState :=
  match fThresholds.FindObject TList.name (trackletsName itracklet) with
  | none =>
    some { st with errors := st.errors ++
      ["Threshold histograms for the case " ++ toString itracklet ++ " tracklets not found"] }
  | some lHistos =>
    let lFormulas : TList TF1 := { name := trackletsName itracklet, objects := [] }
    let st := { st with outlist := st.outlist.Add lFormulas }
    fgkElectronEff.foldlM (SaveThresholdParameters.efficiencyStep root itracklet lHistos) st

/-- Method `AliHFEtrdPIDqa::SaveThresholdParameters`: without threshold lists report an
error and return; otherwise build the output list `thresholdTRD` over the tracklet counts
4, 5, 6 and write it to the file `name`. The result is `none` when a threshold graph is
missing (`MakeThresholds` then dereferences `NULL`). -/
def SaveThresholdParameters (root : ROOT) (self : AliHFEtrdPIDqa) (name : String) :
    Option SaveResult :=
  match self.fThresholds with
  | none =>
    some { errors := ["Threshold histograms have to be created first"], fitted := [],
           outlist := none, outfile := none, self := self }
  | some fThresholds =>
    let st0 : SaveState :=
      { errors := [], fitted := [], outlist := { name := "thresholdTRD", objects := [] } }
    match ([4, 5, 6] : List Int).foldlM
        (SaveThresholdParameters.trackletStep root fThresholds) st0 with
    | none => none
    | some st =>
      -- store the output
      some { errors := st.errors, fitted := st.fitted, outlist := some st.outlist,
             outfile := some { filename := name, key := st.outlist.name, object := st.outlist },
             self := self }

/-- One pass of the loop of `AliHFEtrdPIDqa::Merge` (the body for one object `o`): objects of
another class are skipped, an `AliHFEtrdPIDqa` has its four histograms added to those of
`self` that exist, and is counted. -/
def Merge.step (root : ROOT) (st : Int × AliHFEtrdPIDqa) (o : TObject) : Int × AliHFEtrdPIDqa :=
  match o.asTrdQA with
  | none => st
  | some refQA =>
    (st.1 + 1,
     { st.2 with
       fLikeTRD := st.2.fLikeTRD.map (fun h => root.Add h refQA.fLikeTRD),
       fQAtrack := st.2.fQAtrack.map (fun h => root.Add h refQA.fQAtrack),
       fQAdEdx := st.2.fQAdEdx.map (fun h => root.Add h refQA.fQAdEdx),
       fTRDtruncMean := st.2.fTRDtruncMean.map (fun h => root.Add h refQA.fTRDtruncMean) })

/-- Method `AliHFEtrdPIDqa::Merge`: the returned `Long64_t` and the object afterwards. The
collection pointer is `none` for `NULL`. -/
def Merge (root : ROOT) (self : AliHFEtrdPIDqa) (coll : Option (List TObject)) :
    Int × AliHFEtrdPIDqa :=
  match coll with
  | none => (0, self)
  | some objs =>
    if objs.isEmpty then (1, self)
    else
      let st := objs.foldl (Merge.step root) (0, self)
      (st.1 + 1, st.2)

end AliHFEtrdPIDqa

namespace AliHFEtpcPIDqa

/-- One pass of the loop of `AliHFEtpcPIDqa::Merge` (the body for one object `o`): objects of
another class are skipped, an `AliHFEtpcPIDqa` has its `fHistos` pointer put into
`listHistos`, and is counted. -/
def Merge.step (st : Int × List (Option AliHFEcollection)) (o : TObject) :
    Int × List (Option AliHFEcollection) :=
  match o.asTpcQA with
  | none => st
  | some refQA => (st.1 + 1, st.2 ++ [refQA.fHistos])

/-- Method `AliHFEtpcPIDqa::Merge`: the returned `Long64_t` and the object afterwards. The
parameter `collMerge` is `AliHFEcollection::Merge`, whose code is outside these sources.
After the loop `fHistos->Merge(&listHistos)` is called unguarded, so with a non-empty
collection the result is `none` when `fHistos` is `NULL`. -/
def Merge (collMerge : AliHFEcollection → List (Option AliHFEcollection) → AliHFEcollection)
    (self : AliHFEtpcPIDqa) (coll : Option (List TObject)) : Option (Int × AliHFEtpcPIDqa) :=
  match coll with
  | none => some (0, self)
  | some objs =>
    if objs.isEmpty then some (1, self)
    else
      let st := objs.foldl Merge.step (0, [])
      match self.fHistos with
      | none => none
      | some fHistos => some (st.1 + 1, { self with fHistos := some (collMerge fHistos st.2) })

end AliHFEtpcPIDqa

/-! ## The v0 candidate class -/

/-- A `TVector3` with exact components. -/
structure TVector3 where
  x : ℚ
  y : ℚ
  z : ℚ
deriving DecidableEq

/-- Sum of two vectors (`operator+`). -/
def TVector3.add (a b : TVector3) : TVector3 := ⟨a.x + b.x, a.y + b.y, a.z + b.z⟩

/-- Squared magnitude (`Mag2`). -/
def TVector3.Mag2 (a : TVector3) : ℚ := a.x * a.x + a.y * a.y + a.z * a.z

/-- Scalar product (`Dot`). -/
def TVector3.Dot (a b : TVector3) : ℚ := a.x * b.x + a.y * b.y + a.z * b.z

/-- An `AliAODTrack` as the v0 class sees it: a tag telling tracks apart and `Charge()`. -/
structure AliAODTrack where
  tag : Nat
  charge : Int
deriving DecidableEq

/-- An `AliESDtrack` as the v0 class sees it: a tag telling tracks apart and `Charge()`. -/
structure AliESDtrack where
  tag : Nat
  charge : Int
deriving DecidableEq

/-- The calls the v0 class makes on a daughter object that change it. -/
inductive TrackCall where
  | SetGlobalTrackInfo (size : Int)
  | SetTrackAOD (track : AliAODTrack)
  | SetTrackESD (track : AliESDtrack)
  | SetMomentum (px py pz : ℚ)
deriving DecidableEq

/-- An `AliFemtoDreamTrack` daughter object. The class is not among the sources, so the
object is kept as the sequence of modifying calls made on it, newest first; what its getters
return is a parameter (`TrackMethods`). -/
structure AliFemtoDreamTrack where
  calls : List TrackCall
deriving DecidableEq

namespace AliFemtoDreamTrack

/-- The call `SetGlobalTrackInfo(fGTI, fTrackBufferSize)`. -/
def SetGlobalTrackInfo (d : AliFemtoDreamTrack) (size : Int) : AliFemtoDreamTrack :=
  ⟨TrackCall.SetGlobalTrackInfo size :: d.calls⟩

/-- The call `SetTrack(track)` with an AOD track. -/
def SetTrackAOD (d : AliFemtoDreamTrack) (track : AliAODTrack) : AliFemtoDreamTrack :=
  ⟨TrackCall.SetTrackAOD track :: d.calls⟩

/-- The call `SetTrack(track, nullptr, -1, false)` with an ESD track. -/
def SetTrackESD (d : AliFemtoDreamTrack) (track : AliESDtrack) : AliFemtoDreamTrack :=
  ⟨TrackCall.SetTrackESD track :: d.calls⟩

/-- The call `SetMomentum(px, py, pz)`. -/
def SetMomentum (d : AliFemtoDreamTrack) (px py pz : ℚ) : AliFemtoDreamTrack :=
  ⟨TrackCall.SetMomentum px py pz :: d.calls⟩

/-- The AOD track of the most recent `SetTrack` call in a call sequence, if that call was
made with an AOD track. -/
def lastAOD : List TrackCall → Option AliAODTrack
  | [] => none
  | TrackCall.SetTrackAOD t :: _ => some t
  | TrackCall.SetTrackESD _ :: _ => none
  | _ :: rest => lastAOD rest

/-- The ESD track of the most recent `SetTrack` call in a call sequence, if that call was
made with an ESD track. -/
def lastESD : List TrackCall → Option AliESDtrack
  | [] => none
  | TrackCall.SetTrackESD t :: _ => some t
  | TrackCall.SetTrackAOD _ :: _ => none
  | _ :: rest => lastESD rest

/-- The AOD track the daughter was last set from. -/
def setFromAOD (d : AliFemtoDreamTrack) : Option AliAODTrack := lastAOD d.calls

/-- The ESD track the daughter was last set from. -/
def setFromESD (d : AliFemtoDreamTrack) : Option AliESDtrack := lastESD d.calls

end AliFemtoDreamTrack

/-- An `AliAODv0` as `SetDaughter` sees it: the daughter track IDs and the momenta of prong 0
and prong 1. -/
structure AliAODv0 where
  PosID : Int
  NegID : Int
  prong0 : TVector3
  prong1 : TVector3

/-- The particle origins `AliFemtoDreamBasePart::PartOrigin` that the sources name. -/
inductive PartOrigin where
  | kPhysPrimary
  | kWeak
  | kMaterial
  | kFake
  | kUnknown
deriving DecidableEq

/-- An `AliAODMCParticle` as `SetMCMotherInfo` sees it: PDG code, momentum, transverse
momentum, angles, the three origin flags and the index of the mother (`-1` for none). -/
structure AliAODMCParticle where
  PdgCode : Int
  PxPyPz : TVector3
  Pt : ℚ
  Phi : ℚ
  Theta : ℚ
  IsPhysicalPrimary : Bool
  IsSecondaryFromWeakDecay : Bool
  IsSecondaryFromMaterial : Bool
  GetMother : Int
deriving DecidableEq

/-- An `AliAODEvent` as `SetMCMotherInfo` sees it: the Monte-Carlo particle array found under
`AliAODMCParticle::StdBranchName()`, `none` when there is none. -/
structure AliAODEvent where
  mcarray : Option (List AliAODMCParticle)

/-- The read `mcarray->At(i)` of a `TClonesArray`: `none` (a null pointer) outside the
array. -/
def TClonesArray.At (a : List AliAODMCParticle) (i : Int) : Option AliAODMCParticle :=
  if i < 0 then none else a[i.toNat]?

/-- Calls whose code is outside these sources, taken as parameters: the getters of
`AliFemtoDreamTrack`, the angles of a `TVector3`, the impact parameter `AliESDtrack::GetD`,
`TMath::Sqrt`, and the Monte-Carlo matching `v0->MatchToMC(pdg, mcarray, 2, PDGDaug)` with
the two entries of `PDGDaug` as its last arguments. -/
structure TrackMethods where
  IsSet : AliFemtoDreamTrack → Bool
  GetMomentum : AliFemtoDreamTrack → TVector3
  GetIDTracks : AliFemtoDreamTrack → List Int
  GetCharge : AliFemtoDreamTrack → List Int
  GetPhiAtRaidius : AliFemtoDreamTrack → List (List ℚ)
  GetMCTheta : AliFemtoDreamTrack → List ℚ
  GetMCPhi : AliFemtoDreamTrack → List ℚ
  Eta : TVector3 → ℚ
  Theta : TVector3 → ℚ
  Phi : TVector3 → ℚ
  GetD : AliESDtrack → ℚ → ℚ → ℚ → ℚ
  Sqrt : ℚ → ℚ
  GetPDGCode : AliFemtoDreamTrack → Int
  MatchToMC : AliAODv0 → Int → List AliAODMCParticle → Int → Int → Int

/-- An `AliESDv0` as `SetDaughter` sees it: the daughter track indices, and the momenta
returned by `GetPPxPyPz` and `GetNPxPyPz`. -/
structure AliESDv0 where
  Pindex : Int
  Nindex : Int
  momPos : TVector3
  momNeg : TVector3

/-- An `AliESDEvent` as `SetDaughter` sees it: `GetTrack(i)` (`none` for `NULL`), the x and y
of the primary vertex and the magnetic field. -/
structure AliESDEvent where
  GetTrack : Int → Option AliESDtrack
  vtxX : ℚ
  vtxY : ℚ
  magneticField : ℚ

/-- The data members of `AliFemtoDreamv0` (its own and those of `AliFemtoDreamBasePart`)
that the embedded methods touch. The global track array `fGTI` is read by plain indexing,
so it is a function of the index giving the pointer stored there (`none` for `NULL`). -/
structure AliFemtoDreamv0 where
  fIsMC : Bool
  fEta : List ℚ
  fTheta : List ℚ
  fPhi : List ℚ
  fMCTheta : List ℚ
  fMCPhi : List ℚ
  fIDTracks : List Int
  fCharge : List Int
  fPhiAtRadius : List (List ℚ)
  fGTI : Int → Option AliAODTrack
  fTrackBufferSize : Int
  fHasDaughter : Bool
  fpDaug : AliFemtoDreamTrack
  fnDaug : AliFemtoDreamTrack
  fdcaPrimPos : ℚ
  fdcaPrimNeg : ℚ
  fOnlinev0 : Bool
  fv0Mass : ℚ
  fv0Vtx : ℚ × ℚ × ℚ
  fdcav0Daug : ℚ
  fdcaPrim : ℚ
  flenDecay : ℚ
  fTransRadius : ℚ
  fP : TVector3
  fMCP : TVector3
  fPt : ℚ
  fMCPt : ℚ
  fP_TPC : ℚ
  fCPA : ℚ
  fOrigin : PartOrigin
  fPDGCode : Int
  fMCPDGCode : Int
  fPDGMotherWeak : Int
  fMotherPDG : Int
  fUse : Bool
  fIsSet : Bool
  fIsReset : Bool

namespace AliFemtoDreamv0

/-- Modelled from the spec: the setter `SetEta` of `AliFemtoDreamBasePart` (its header is not
among the sources) appends one entry. -/
def SetEta (self : AliFemtoDreamv0) (v : ℚ) : AliFemtoDreamv0 :=
  { self with fEta := self.fEta ++ [v] }

/-- Modelled from the spec: the setter `SetTheta` appends one entry. -/
def SetTheta (self : AliFemtoDreamv0) (v : ℚ) : AliFemtoDreamv0 :=
  { self with fTheta := self.fTheta ++ [v] }

/-- Modelled from the spec: the setter `SetPhi` appends one entry. -/
def SetPhi (self : AliFemtoDreamv0) (v : ℚ) : AliFemtoDreamv0 :=
  { self with fPhi := self.fPhi ++ [v] }

/-- Modelled from the spec: the setter `SetMCTheta` appends one entry. -/
def SetMCTheta (self : AliFemtoDreamv0) (v : ℚ) : AliFemtoDreamv0 :=
  { self with fMCTheta := self.fMCTheta ++ [v] }

/-- Modelled from the spec: the setter `SetMCPhi` appends one entry. -/
def SetMCPhi (self : AliFemtoDreamv0) (v : ℚ) : AliFemtoDreamv0 :=
  { self with fMCPhi := self.fMCPhi ++ [v] }

/-- Modelled from the spec: the setter `SetIDTracks` appends one entry. -/
def SetIDTracks (self : AliFemtoDreamv0) (v : Int) : AliFemtoDreamv0 :=
  { self with fIDTracks := self.fIDTracks ++ [v] }

/-- Modelled from the spec: the setter `SetCharge` appends one entry. -/
def SetCharge (self : AliFemtoDreamv0) (v : Int) : AliFemtoDreamv0 :=
  { self with fCharge := self.fCharge ++ [v] }

/-- Modelled from the spec: the setter `SetPhiAtRadius` appends one entry. -/
def SetPhiAtRadius (self : AliFemtoDreamv0) (v : List ℚ) : AliFemtoDreamv0 :=
  { self with fPhiAtRadius := self.fPhiAtRadius ++ [v] }

/-- The read `v.at(0)` of a `std::vector`: `none` when it throws `std::out_of_range`. -/
def at0 {α : Type} (v : List α) : Option α := v.head?

/-- All vectors of a daughter that `SetDaughterInfo` reads with `.at(0)` have an entry. -/
def Readable (m : TrackMethods) (d : AliFemtoDreamTrack) : Prop :=
  m.GetIDTracks d ≠ [] ∧ m.GetCharge d ≠ [] ∧ m.GetPhiAtRaidius d ≠ [] ∧
    m.GetMCTheta d ≠ [] ∧ m.GetMCPhi d ≠ []

/-- The part of both `SetDaughterInfo` variants after the momenta are set: copy eta, theta,
phi, track ID, charge and phi-at-radius of the daughters into the v0. Both phi-at-radius
blocks test and read `fnDaug`, as in the source. -/
def SetDaughterInfo.common (m : TrackMethods) (self : AliFemtoDreamv0) :
    Option AliFemtoDreamv0 := do
  let self := self.SetEta (m.Eta (m.GetMomentum self.fnDaug))
  let self := self.SetEta (m.Eta (m.GetMomentum self.fpDaug))
  let self := self.SetTheta (m.Theta (m.GetMomentum self.fnDaug))
  let self := self.SetTheta (m.Theta (m.GetMomentum self.fpDaug))
  let self := self.SetPhi (m.Phi (m.GetMomentum self.fnDaug))
  let self := self.SetPhi (m.Phi (m.GetMomentum self.fpDaug))
  let self := self.SetIDTracks (← at0 (m.GetIDTracks self.fnDaug))
  let self := self.SetIDTracks (← at0 (m.GetIDTracks self.fpDaug))
  let self := self.SetCharge (← at0 (m.GetCharge self.fnDaug))
  let self := self.SetCharge (← at0 (m.GetCharge self.fpDaug))
  let self ← if m.IsSet self.fnDaug then
      (at0 (m.GetPhiAtRaidius self.fnDaug)).map self.SetPhiAtRadius
    else some self
  let self ← if m.IsSet self.fnDaug then
      (at0 (m.GetPhiAtRaidius self.fnDaug)).map self.SetPhiAtRadius
    else some self
  return self

/-- The Monte-Carlo block at the end of `SetDaughterInfo(AliAODv0*)`. -/
def SetDaughterInfo.mc (m : TrackMethods) (self : AliFemtoDreamv0) :
    Option AliFemtoDreamv0 := do
  if self.fIsMC then
    let self ← if m.IsSet self.fnDaug then do
        let self := self.SetMCTheta (← at0 (m.GetMCTheta self.fnDaug))
        let self := self.SetMCPhi (← at0 (m.GetMCPhi self.fnDaug))
        pure self
      else some self
    let self ← if m.IsSet self.fpDaug then do
        let self := self.SetMCTheta (← at0 (m.GetMCTheta self.fpDaug))
        let self := self.SetMCPhi (← at0 (m.GetMCPhi self.fpDaug))
        pure self
      else some self
    return self
  else
    return self

/-- Method `AliFemtoDreamv0::SetDaughterInfo(AliAODv0*)`: `fnDaug` gets the momentum of
prong 1, `fpDaug` that of prong 0, then the daughter information is copied. -/
def SetDaughterInfoAOD (m : TrackMethods) (self : AliFemtoDreamv0) (v0 : AliAODv0) :
    Option AliFemtoDreamv0 := do
  let self := { self with fnDaug := self.fnDaug.SetMomentum v0.prong1.x v0.prong1.y v0.prong1.z }
  let self := { self with fpDaug := self.fpDaug.SetMomentum v0.prong0.x v0.prong0.y v0.prong0.z }
  let self ← SetDaughterInfo.common m self
  SetDaughterInfo.mc m self

/-- Method `AliFemtoDreamv0::SetDaughterInfo(AliESDv0*)`: `fnDaug` gets `momPosAtV0vtx`,
`fpDaug` gets `momNegAtV0vtx`, then the daughter information is copied (the Monte-Carlo
block is commented out in the source). -/
def SetDaughterInfoESD (m : TrackMethods) (self : AliFemtoDreamv0) (v0 : AliESDv0) :
    Option AliFemtoDreamv0 := do
  let momPosAtV0vtx := v0.momPos
  let momNegAtV0vtx := v0.momNeg
  let self := { self with
    fnDaug := self.fnDaug.SetMomentum momPosAtV0vtx.x momPosAtV0vtx.y momPosAtV0vtx.z }
  let self := { self with
    fpDaug := self.fpDaug.SetMomentum momNegAtV0vtx.x momNegAtV0vtx.y momNegAtV0vtx.z }
  SetDaughterInfo.common m self

/-- Method `AliFemtoDreamv0::SetDaughter(AliAODv0*)`: look both daughters up in the global
track array and hand the positively charged one to `fpDaug`, the negatively charged one to
`fnDaug`. The result is `none` when `SetDaughterInfo` throws. -/
def SetDaughterAOD (m : TrackMethods) (self : AliFemtoDreamv0) (v0 : AliAODv0) :
    Option AliFemtoDreamv0 :=
  if v0.PosID ≥ self.fTrackBufferSize ∨ v0.NegID ≥ self.fTrackBufferSize then
    some { self with fHasDaughter := false }
  else
    let self := { self with fpDaug := self.fpDaug.SetGlobalTrackInfo self.fTrackBufferSize }
    let self := { self with fnDaug := self.fnDaug.SetGlobalTrackInfo self.fTrackBufferSize }
    match self.fGTI v0.PosID, self.fGTI v0.NegID with
    | some pos, some neg =>
      if pos.charge > 0 ∧ neg.charge < 0 then
        let self := { self with fnDaug := self.fnDaug.SetTrackAOD neg }
        let self := { self with fpDaug := self.fpDaug.SetTrackAOD pos }
        (SetDaughterInfoAOD m self v0).map (fun s => { s with fHasDaughter := true })
      else if pos.charge < 0 ∧ neg.charge > 0 then
        let self := { self with fnDaug := self.fnDaug.SetTrackAOD pos }
        let self := { self with fpDaug := self.fpDaug.SetTrackAOD neg }
        (SetDaughterInfoAOD m self v0).map (fun s => { s with fHasDaughter := true })
      else
        some { self with fHasDaughter := false }
    | _, _ => some { self with fHasDaughter := false }

/-- The transverse impact parameter `TMath::Abs(track->GetD(x, y, b))` of a track with
respect to the primary vertex of the event. -/
def absD (m : TrackMethods) (evt : AliESDEvent) (track : AliESDtrack) : ℚ :=
  |m.GetD track evt.vtxX evt.vtxY evt.magneticField|

/-- Method `AliFemtoDreamv0::SetDaughter(AliESDEvent*, AliESDv0*)`: fetch both daughter
tracks from the event and hand the positively charged one to `fpDaug`, the negatively charged
one to `fnDaug`. The result is `none` when `SetDaughterInfo` throws. -/
def SetDaughterESD (m : TrackMethods) (self : AliFemtoDreamv0) (evt : AliESDEvent)
    (v0 : AliESDv0) : Option AliFemtoDreamv0 :=
  let posFromV0 := v0.Pindex
  let negFromV0 := v0.Nindex
  let esdV0Pos := evt.GetTrack posFromV0
  let esdV0Neg := evt.GetTrack negFromV0
  let self := { self with fHasDaughter := false }
  match esdV0Pos, esdV0Neg with
  | some esdV0Pos, some esdV0Neg =>
    if esdV0Pos.charge > 0 ∧ esdV0Neg.charge < 0 then
      let self := { self with fnDaug := self.fnDaug.SetTrackESD esdV0Neg }
      let self := { self with fpDaug := self.fpDaug.SetTrackESD esdV0Pos }
      if m.IsSet self.fnDaug ∧ m.IsSet self.fpDaug then
        (SetDaughterInfoESD m self v0).map (fun s =>
          { s with fHasDaughter := true,
                   fdcaPrimPos := absD m evt esdV0Pos,
                   fdcaPrimNeg := absD m evt esdV0Neg })
      else some self
    else if esdV0Pos.charge < 0 ∧ esdV0Neg.charge > 0 then
      let self := { self with fnDaug := self.fnDaug.SetTrackESD esdV0Pos }
      let self := { self with fpDaug := self.fpDaug.SetTrackESD esdV0Neg }
      if m.IsSet self.fnDaug ∧ m.IsSet self.fpDaug then
        (SetDaughterInfoESD m self v0).map (fun s =>
          { s with fHasDaughter := true,
                   fdcaPrimNeg := absD m evt esdV0Pos,
                   fdcaPrimPos := absD m evt esdV0Neg })
      else some self
    else some self
  | _, _ => some { self with fHasDaughter := false }

/-- Method `AliFemtoDreamv0::CosPointingAngle`: the arrays `DecayVtx` and `point` are read by
index. The third component of `fline` is `DecayVtx[0] - point[2]`, as in the source. -/
def CosPointingAngle (m : TrackMethods) (self : AliFemtoDreamv0) (DecayVtx point : Nat → ℚ) :
    ℚ :=
  let v0Mom := (m.GetMomentum self.fpDaug).add (m.GetMomentum self.fnDaug)
  let fline : TVector3 :=
    ⟨DecayVtx 0 - point 0, DecayVtx 1 - point 1, DecayVtx 0 - point 2⟩
  let ptot2 := v0Mom.Mag2 * fline.Mag2
  if ptot2 ≤ 0 then
    0
  else
    let cos := v0Mom.Dot fline / m.Sqrt ptot2
    let cos := if cos > 1 then 1 else cos
    let cos := if cos < -1 then -1 else cos
    cos

/-- The cosine of the pointing angle in space as the claim words it (not taken from the
source): with `p` the sum of the daughter momenta and `l = DecayVtx - point` in all three
coordinates, `0` when `|p|^2 * |l|^2 <= 0` and otherwise `(p . l) / sqrt(|p|^2 * |l|^2)`
clamped to `[-1, 1]`. -/
def CosPointingAngleInSpace (m : TrackMethods) (self : AliFemtoDreamv0)
    (DecayVtx point : Nat → ℚ) : ℚ :=
  let p := (m.GetMomentum self.fpDaug).add (m.GetMomentum self.fnDaug)
  let l : TVector3 := ⟨DecayVtx 0 - point 0, DecayVtx 1 - point 1, DecayVtx 2 - point 2⟩
  if p.Mag2 * l.Mag2 ≤ 0 then 0
  else max (-1) (min 1 (p.Dot l / m.Sqrt (p.Mag2 * l.Mag2)))

end AliFemtoDreamv0

namespace AliFemtoDreamv0

end AliFemtoDreamv0

namespace AliFemtoDreamv0

/-- Method `AliFemtoDreamv0::Reset`: unless the object is already reset, put every data
member back to its start value except the PDG code, the Monte-Carlo flag and the daughters.
-/
def Reset (self : AliFemtoDreamv0) : AliFemtoDreamv0 :=
  if !self.fIsReset then
    { self with
      fOnlinev0 := false,
      fHasDaughter := false,
      -- daughters don't need to be reset, are reset while setting a new track
      fv0Mass := 0,
      fv0Vtx := (99, 99, 99),
      fdcav0Daug := 99,
      fdcaPrim := 0,
      fdcaPrimPos := 0,
      fdcaPrimNeg := 0,
      flenDecay := 0,
      fTransRadius := 0,
      fP := ⟨0, 0, 0⟩,
      fMCP := ⟨0, 0, 0⟩,
      fPt := 0,
      fMCPt := 0,
      fP_TPC := 0,
      fEta := [],
      fTheta := [],
      fMCTheta := [],
      fPhi := [],
      fPhiAtRadius := [],
      fMCPhi := [],
      fIDTracks := [],
      fCharge := [],
      fCPA := 0,
      fOrigin := PartOrigin.kUnknown,
      -- we don't want to reset the fPDGCode
      fMCPDGCode := 0,
      fPDGMotherWeak := 0,
      -- we don't want to reset isMC
      fUse := false,
      fIsSet := true,
      fIsReset := true }
  else
    self

/-- Modelled from the spec: the setter `SetParticleOrigin` of `AliFemtoDreamBasePart` (its
header is not among the sources) stores the origin. -/
def SetParticleOrigin (self : AliFemtoDreamv0) (o : PartOrigin) : AliFemtoDreamv0 :=
  { self with fOrigin := o }

/-- Modelled from the spec: the setter `SetUse` stores the flag. -/
def SetUse (self : AliFemtoDreamv0) (b : Bool) : AliFemtoDreamv0 :=
  { self with fUse := b }

/-- Modelled from the spec: the setter `SetMCPDGCode` stores the code. -/
def SetMCPDGCode (self : AliFemtoDreamv0) (pdg : Int) : AliFemtoDreamv0 :=
  { self with fMCPDGCode := pdg }

/-- Modelled from the spec: the setter `SetMCMomentum` stores the three components. -/
def SetMCMomentum (self : AliFemtoDreamv0) (px py pz : ℚ) : AliFemtoDreamv0 :=
  { self with fMCP := ⟨px, py, pz⟩ }

/-- Modelled from the spec: the setter `SetMCPt` stores the value. -/
def SetMCPt (self : AliFemtoDreamv0) (pt : ℚ) : AliFemtoDreamv0 :=
  { self with fMCPt := pt }

/-- Modelled from the spec: the setter `SetPDGMotherWeak` stores the code. -/
def SetPDGMotherWeak (self : AliFemtoDreamv0) (pdg : Int) : AliFemtoDreamv0 :=
  { self with fPDGMotherWeak := pdg }

/-- Modelled from the spec: the setter `SetMotherPDG` stores the code. -/
def SetMotherPDG (self : AliFemtoDreamv0) (pdg : Int) : AliFemtoDreamv0 :=
  { self with fMotherPDG := pdg }

/-- The origin branches of `SetMCMotherInfo` for a non-null Monte-Carlo particle. The weak
branch reads the PDG code of the mother through `mcarray->At(mcPart->GetMother())`
unguarded, so the result is `none` when that pointer is null. -/
def SetMCMotherInfo.origin (self : AliFemtoDreamv0) (mcarray : List AliAODMCParticle)
    (mcPart : AliAODMCParticle) : Option AliFemtoDreamv0 :=
  if mcPart.IsPhysicalPrimary ∧ ¬ mcPart.IsSecondaryFromWeakDecay then
    some (self.SetParticleOrigin PartOrigin.kPhysPrimary)
  else if mcPart.IsSecondaryFromWeakDecay ∧ ¬ mcPart.IsSecondaryFromMaterial then
    let self := self.SetParticleOrigin PartOrigin.kWeak
    match TClonesArray.At mcarray mcPart.GetMother with
    | none => none
    | some mother => some (self.SetPDGMotherWeak mother.PdgCode)
  else if mcPart.IsSecondaryFromMaterial then
    some (self.SetParticleOrigin PartOrigin.kMaterial)
  else
    some (self.SetParticleOrigin PartOrigin.kUnknown)

/-- The loop `while (motherID != -1)` of `SetMCMotherInfo`, started with `motherID` and
`lastMother`: its value is the final `lastMother`. The result is `none` when a mother
pointer is null (it is dereferenced unguarded) and when the allowed number of passes does
not reach the end of the chain. -/
def SetMCMotherInfo.motherLoop (mcarray : List AliAODMCParticle) : Nat → Int → Int → Option Int
  | 0, motherID, lastMother => if motherID ≠ -1 then none else some lastMother
  | fuel + 1, motherID, lastMother =>
    if motherID ≠ -1 then
      let lastMother := motherID
      match TClonesArray.At mcarray motherID with
      | none => none
      | some mcMother => SetMCMotherInfo.motherLoop mcarray fuel mcMother.GetMother lastMother
    else
      some lastMother

/-- The label `v0->MatchToMC(TMath::Abs(fPDGCode), mcarray, 2, PDGDaug)` that
`SetMCMotherInfo` computes, with `PDGDaug` holding the absolute PDG codes of `fpDaug` and
`fnDaug`. -/
def SetMCMotherInfo.label (m : TrackMethods) (self : AliFemtoDreamv0) (v0 : AliAODv0)
    (mcarray : List AliAODMCParticle) : Int :=
  let PDGDaug0 := |m.GetPDGCode self.fpDaug|
  let PDGDaug1 := |m.GetPDGCode self.fnDaug|
  m.MatchToMC v0 |self.fPDGCode| mcarray PDGDaug0 PDGDaug1

/-- Method `AliFemtoDreamv0::SetMCMotherInfo`. The result is `none` when `AliFatal` is
called (no Monte-Carlo array), when a null particle pointer is dereferenced, and when the
mother loop does not end. A mother chain that ends visits every particle of the array at
most once, so the loop is allowed as many passes as the array has particles; a longer run
has come back to a particle it has already visited and goes on forever. -/
def SetMCMotherInfo (m : TrackMethods) (self : AliFemtoDreamv0) (evt : AliAODEvent)
    (v0 : AliAODv0) : Option AliFemtoDreamv0 :=
  match evt.mcarray with
  | none => none
  | some mcarray =>
    let label := SetMCMotherInfo.label m self v0 mcarray
    if label < 0 then
      -- contamination/background v0: this should be kFake
      some (self.SetParticleOrigin PartOrigin.kFake)
    else
      match TClonesArray.At mcarray label with
      | none =>
        -- this should be fIsSet!
        some (self.SetUse false)
      | some mcPart =>
        let self := self.SetMCPDGCode mcPart.PdgCode
        let self := self.SetMCMomentum mcPart.PxPyPz.x mcPart.PxPyPz.y mcPart.PxPyPz.z
        let self := self.SetMCPt mcPart.Pt
        let self := self.SetMCPhi mcPart.Phi
        let self := self.SetMCTheta mcPart.Theta
        match SetMCMotherInfo.origin self mcarray mcPart with
        | none => none
        | some self =>
          let motherID := mcPart.GetMother
          match SetMCMotherInfo.motherLoop mcarray mcarray.length motherID motherID with
          | none => none
          | some lastMother =>
            match TClonesArray.At mcarray lastMother with
            | none => some self
            | some mcMother => some (self.SetMotherPDG mcMother.PdgCode)

end AliFemtoDreamv0

/-! ## Filling and projecting the QA histograms -/

/-- Calls on `AliESDtrack`, `AliESDpid` and `AliHFEpidTRD` whose code is outside these
sources, taken as parameters. `GetInnerParam` and `GetOuterParam` give the momentum `P()` of
the inner and outer track parameters, `none` when the parameter pointer is null;
`GetTRDpid track i` is entry `i` of the array filled by `GetTRDpid`. -/
structure ESDMethods where
  GetStatus : AliESDtrack → Nat
  P : AliESDtrack → ℚ
  GetInnerParam : AliESDtrack → Option ℚ
  GetOuterParam : AliESDtrack → Option ℚ
  GetTPCsignal : AliESDtrack → ℚ
  GetTRDpid : AliESDtrack → Nat → ℚ
  GetTRDntrackletsPID : AliESDtrack → Int
  GetTRDncls : AliESDtrack → Int
  GetNumberOfTRDslices : AliESDtrack → Int
  GetTRDslice : AliESDtrack → Int → Int → ℚ
  NumberOfSigmasTPC : AliESDpid → AliESDtrack → Nat → ℚ
  GetTRDSignalV1 : AliHFEpidTRD → AliESDtrack → ℚ
  GetTRDSignalV2 : AliHFEpidTRD → AliESDtrack → ℚ

/-- Method `THnSparse::Fill(x)`: one more coordinate tuple. -/
def THnSparseF.Fill (h : THnSparseF) (x : List ℚ) : THnSparseF :=
  { h with fills := h.fills ++ [x] }

/-- Number of particle species `AliPID::kSPECIES`. -/
def AliPID.kSPECIES : Int := 5

/-- Index `AliPID::kElectron` of the electron. -/
def AliPID.kElectron : Nat := 0

/-- Status bit `AliESDtrack::kTRDout`. -/
def AliESDtrack.kTRDout : Nat := 0x0200

/-- Number of TRD layers `AliESDtrack::kTRDnPlanes`. -/
def AliESDtrack.kTRDnPlanes : Nat := 6

/-- The selection steps `AliHFEdetPIDqa::EStep_t`. -/
inductive EStep_t where
  | kBeforePID
  | kAfterPID
deriving DecidableEq

/-- The integer value of a selection step. -/
def EStep_t.toInt : EStep_t → Int
  | EStep_t.kBeforePID => 0
  | EStep_t.kAfterPID => 1

namespace AliHFEcollection

/-- Method `AliHFEcollection::Get(name)` followed by the cast to `THnSparseF *`: the first
histogram of that name, `none` for `NULL`. -/
def Get (c : AliHFEcollection) (name : String) : Option THnSparseF :=
  (c.histos.find? (fun e => e.1 == name)).map Prod.snd

/-- Filling the first histogram of the given name in a list of named histograms; `none`
when there is no such histogram. -/
def fillFirst : List (String × THnSparseF) → String → List ℚ →
    Option (List (String × THnSparseF))
  | [], _, _ => none
  | e :: rest, name, x =>
    if e.1 == name then some ((e.1, e.2.Fill x) :: rest)
    else (fillFirst rest name x).map (fun r => e :: r)

/-- The statement `(dynamic_cast<THnSparseF *>(fHistos->Get(name)))->Fill(x)`: `none` when
`Get` gives `NULL` (the pointer is dereferenced unguarded). -/
def Fill (c : AliHFEcollection) (name : String) (x : List ℚ) : Option AliHFEcollection :=
  (fillFirst c.histos name x).map (fun l => { histos := l })

end AliHFEcollection

namespace AliHFEtpcPIDqa

/-- Method `AliHFEtpcPIDqa::ProcessESDtrack`: the messages given to `AliError` and the
object afterwards. Without `fESDpid` it reports an error and returns; otherwise it fills
`tpcDedx` with (species, momentum, TPC signal, step, centrality) and `tpcnSigma` with the
same tuple whose third entry is replaced by the number of sigmas. The result is `none` when
`fHistos` or one of the two histograms is missing (they are dereferenced unguarded). -/
def ProcessESDtrack (e : ESDMethods) (self : AliHFEtpcPIDqa) (track : AliESDtrack)
    (step : EStep_t) (species : Int) (centrality : ℚ) :
    Option (List String × AliHFEtpcPIDqa) :=
  match self.fESDpid with
  | none => some (["No ESD PID object available"], self)
  | some fESDpid =>
    let contentSignal : List ℚ :=
      [(species : ℚ),
       match e.GetInnerParam track with
       | some p => p
       | none => e.P track,
       e.GetTPCsignal track,
       (step.toInt : ℚ),
       centrality]
    match self.fHistos with
    | none => none
    | some fHistos =>
      match fHistos.Fill "tpcDedx" contentSignal with
      | none => none
      | some fHistos =>
        let contentSignal :=
          contentSignal.set 2 (e.NumberOfSigmasTPC fESDpid track AliPID.kElectron)
        match fHistos.Fill "tpcnSigma" contentSignal with
        | none => none
        | some fHistos => some ([], { self with fHistos := some fHistos })

/-- What `MakeSpectrumdEdx` and `MakeSpectrumNSigma` return: the projection `hTmp` with its
name, titles and statistics flag, together with the ranges the method had put on the step
axis (axis 3) and on the species axis (axis 0) when it projected; `none` for the species
range means that the method did not touch the species axis. -/
structure Spectrum where
  name : String
  title : String
  xTitle : String
  yTitle : String
  stats : Bool
  stepRange : Int × Int
  speciesRange : Option (Int × Int)
  hist : TH2

/-- The word `before` or `after` that both spectrum methods put into name and title. -/
def stepWord (istep : EStep_t) : String :=
  if istep = EStep_t.kBeforePID then "before" else "after"

/-- Method `AliHFEtpcPIDqa::MakeSpectrumdEdx`. The parameter `proj` is
`hSignal->Projection(2, 1)` under the given ranges of the step and species axes, and
`ParticleName` is `AliPID::ParticleName`. The species axis is restricted when
`species > 0 && species < AliPID::kSPECIES`. Both ranges are undone before the method
returns. The result is `none` when `fHistos` or the histogram `tpcDedx` is missing. -/
def MakeSpectrumdEdx (proj : THnSparseF → Int × Int → Option (Int × Int) → TH2)
    (ParticleName : Int → String) (self : AliHFEtpcPIDqa) (istep : EStep_t) (species : Int) :
    Option Spectrum :=
  match self.fHistos.bind (fun c => c.Get "tpcDedx") with
  | none => none
  | some hSignal =>
    let stepRange := (istep.toInt + 1, istep.toInt + 1)
    let speciesRange :=
      if species > 0 ∧ species < AliPID.kSPECIES then some (2 + species, 2 + species)
      else none
    let hTmp := proj hSignal stepRange speciesRange
    let hname := "hTPCsignal" ++ stepWord istep
    let htitle := "TPC dE/dx Spectrum " ++ stepWord istep ++ " selection"
    let hname := if species > -1 then hname ++ ParticleName species else hname
    let htitle :=
      if species > -1 then htitle ++ (" for " ++ ParticleName species ++ "s") else htitle
    some { name := hname, title := htitle, xTitle := "p [GeV/c]",
           yTitle := "TPC signal [a.u.]", stats := false,
           stepRange := stepRange, speciesRange := speciesRange, hist := hTmp }

/-- Method `AliHFEtpcPIDqa::MakeSpectrumNSigma`. The parameters are those of
`MakeSpectrumdEdx`. The species axis is restricted when
`species >= 0 && species < AliPID::kSPECIES`. The result is `none` when `fHistos` or the
histogram `tpcnSigma` is missing. -/
def MakeSpectrumNSigma (proj : THnSparseF → Int × Int → Option (Int × Int) → TH2)
    (ParticleName : Int → String) (self : AliHFEtpcPIDqa) (istep : EStep_t) (species : Int) :
    Option Spectrum :=
  match self.fHistos.bind (fun c => c.Get "tpcnSigma") with
  | none => none
  | some hSignal =>
    let stepRange := (istep.toInt + 1, istep.toInt + 1)
    let speciesRange :=
      if species ≥ 0 ∧ species < AliPID.kSPECIES then some (2 + species, 2 + species)
      else none
    let hTmp := proj hSignal stepRange speciesRange
    let hname := "hTPCsigma" ++ stepWord istep
    let htitle := "TPC dE/dx Spectrum[#sigma] " ++ stepWord istep ++ " selection"
    let hname := if species > -1 then hname ++ ParticleName species else hname
    let htitle :=
      if species > -1 then htitle ++ (" for " ++ ParticleName species ++ "s") else htitle
    some { name := hname, title := htitle, xTitle := "p [GeV/c]",
           yTitle := "TPC dE/dx - <dE/dx>|_\x7bel\x7d [#sigma]", stats := false,
           stepRange := stepRange, speciesRange := speciesRange, hist := hTmp }

end AliHFEtpcPIDqa

namespace AliHFEtrdPIDqa

/-- The momentum both fill methods store: `outerPars ? outerPars->P() : track->P()`. -/
def trackMomentum (e : ESDMethods) (track : AliESDtrack) : ℚ :=
  match e.GetOuterParam track with
  | some p => p
  | none => e.P track

/-- Method `AliHFEtrdPIDqa::FillTRDLikelihoods`: fill `fLikeTRD` with (species, momentum,
number of tracklets, electron likelihood). The result is `none` when `fLikeTRD` is null. -/
def FillTRDLikelihoods (e : ESDMethods) (self : AliHFEtrdPIDqa) (track : AliESDtrack)
    (species : Int) : Option AliHFEtrdPIDqa :=
  let quantities : List ℚ :=
    [(species : ℚ), trackMomentum e track, (e.GetTRDntrackletsPID track : ℚ),
     e.GetTRDpid track AliPID.kElectron]
  match self.fLikeTRD with
  | none => none
  | some fLikeTRD => some { self with fLikeTRD := some (fLikeTRD.Fill quantities) }

/-- The loop state of the layer loop of `FillTRDQAplots`: the two counters, which run over
all layers, and the histogram `fQAdEdx`. -/
structure PlaneState where
  nSlicesNonZero : Int
  ntrackletsNonZero : Int
  fQAdEdx : Option THnSparseF

/-- The slice loop of `FillTRDQAplots` for one layer: the sum of the slice charges above
`1e-1` and the running number of such slices. -/
def FillTRDQAplots.sliceLoop (e : ESDMethods) (track : AliESDtrack) (iplane : Int)
    (nSlices : Int) (nSlicesNonZero : Int) : ℚ × Int :=
  (List.range nSlices.toNat).foldl
    (fun (acc : ℚ × Int) islice =>
      let qSlice := e.GetTRDslice track iplane islice
      if qSlice > 1/10 then
        -- cut out 0 slices
        (acc.1 + qSlice, acc.2 + 1)
      else acc)
    (0, nSlicesNonZero)

/-- One pass of the layer loop of `FillTRDQAplots` (the body for one `iplane`): `fQAdEdx` is
filled with (species, momentum, tracklets, dEdx sum, clusters, non-zero slices) when the sum
is above `1e-1`. The result is `none` when `fQAdEdx` is null at that point. -/
def FillTRDQAplots.planeStep (e : ESDMethods) (track : AliESDtrack) (species : Int)
    (st : PlaneState) (iplane : Nat) : Option PlaneState :=
  let nSlices := e.GetNumberOfTRDslices track - 1
  let r := FillTRDQAplots.sliceLoop e track iplane nSlices st.nSlicesNonZero
  let dEdxSum := r.1
  let nSlicesNonZero := r.2
  let quantitiesdEdx : List ℚ :=
    [(species : ℚ), trackMomentum e track, (e.GetTRDntrackletsPID track : ℚ),
     dEdxSum, (e.GetTRDncls track : ℚ), (nSlicesNonZero : ℚ)]
  let ntrackletsNonZero :=
    if dEdxSum ≠ 0 then st.ntrackletsNonZero + 1 else st.ntrackletsNonZero
  -- Fill dEdx histogram
  if dEdxSum > 1/10 then
    match st.fQAdEdx with
    | none => none
    | some h =>
      some { nSlicesNonZero := nSlicesNonZero, ntrackletsNonZero := ntrackletsNonZero,
             fQAdEdx := some (h.Fill quantitiesdEdx) }
  else
    some { nSlicesNonZero := nSlicesNonZero, ntrackletsNonZero := ntrackletsNonZero,
           fQAdEdx := st.fQAdEdx }

/-- Method `AliHFEtrdPIDqa::FillTRDQAplots`: run the layer loop over the six layers, fill
`fQAtrack` with (species, momentum, tracklets, layers with charge, clusters) and
`fTRDtruncMean` with (species, momentum, tracklets, TPC signal, TRD signal of method 1, TRD
signal of method 2). The coordinates after the three common ones stand in the order in which
the source names them. The result is `none` when a histogram that is filled, or `fTRDpid`,
is null. -/
def FillTRDQAplots (e : ESDMethods) (self : AliHFEtrdPIDqa) (track : AliESDtrack)
    (species : Int) : Option AliHFEtrdPIDqa :=
  match (List.range AliESDtrack.kTRDnPlanes).foldlM (FillTRDQAplots.planeStep e track species)
      { nSlicesNonZero := 0, ntrackletsNonZero := 0, fQAdEdx := self.fQAdEdx } with
  | none => none
  | some st =>
    let quantitiesQA : List ℚ :=
      [(species : ℚ), trackMomentum e track, (e.GetTRDntrackletsPID track : ℚ),
       (st.ntrackletsNonZero : ℚ), (e.GetTRDncls track : ℚ)]
    match self.fQAtrack with
    | none => none
    | some fQAtrack =>
      match self.fTRDpid with
      | none => none
      | some fTRDpid =>
        let quantitiesTruncMean : List ℚ :=
          [(species : ℚ), trackMomentum e track, (e.GetTRDntrackletsPID track : ℚ),
           e.GetTPCsignal track, e.GetTRDSignalV1 fTRDpid track,
           e.GetTRDSignalV2 fTRDpid track]
        match self.fTRDtruncMean with
        | none => none
        | some fTRDtruncMean =>
          some { self with
            fQAdEdx := st.fQAdEdx,
            fQAtrack := some (fQAtrack.Fill quantitiesQA),
            fTRDtruncMean := some (fTRDtruncMean.Fill quantitiesTruncMean) }

/-- Method `AliHFEtrdPIDqa::ProcessTrackESD`: a track without the status bit `kTRDout` is
left out, any other track goes through `FillTRDLikelihoods` and `FillTRDQAplots`. -/
def ProcessTrackESD (e : ESDMethods) (self : AliHFEtrdPIDqa) (track : AliESDtrack)
    (species : Int) : Option AliHFEtrdPIDqa :=
  if (e.GetStatus track) &&& AliESDtrack.kTRDout = 0 then
    -- require TRD track
    some self
  else
    match FillTRDLikelihoods e self track species with
    | none => none
    | some self => FillTRDQAplots e self track species

end AliHFEtrdPIDqa

/-! ## The EMCAL clusterization task -/

/-- The data members of `AliAnalysisTaskEMCALClusterize` that steer the access to the
conditions data bases: the OCDB path and flag, and the OADB flags and path. -/
structure AliAnalysisTaskEMCALClusterize where
  fOCDBpath : String
  fAccessOCDB : Bool
  fOADBSet : Bool
  fAccessOADB : Bool
  fOADBFilePath : String
deriving DecidableEq

namespace AliAnalysisTaskEMCALClusterize

/-- Inline method `SwitchOnAccessOCDB`. -/
def SwitchOnAccessOCDB (self : AliAnalysisTaskEMCALClusterize) :
    AliAnalysisTaskEMCALClusterize :=
  { self with fAccessOCDB := true }

/-- Inline method `SwitchOffAccessOCDB`. -/
def SwitchOffAccessOCDB (self : AliAnalysisTaskEMCALClusterize) :
    AliAnalysisTaskEMCALClusterize :=
  { self with fAccessOCDB := false }

/-- Inline method `SwitchOnEMCALOADB`: its body is `fAccessOCDB = kTRUE`. -/
def SwitchOnEMCALOADB (self : AliAnalysisTaskEMCALClusterize) :
    AliAnalysisTaskEMCALClusterize :=
  { self with fAccessOCDB := true }

/-- Inline method `SwitchOffEMCALOADB`: its body is `fAccessOCDB = kFALSE`. -/
def SwitchOffEMCALOADB (self : AliAnalysisTaskEMCALClusterize) :
    AliAnalysisTaskEMCALClusterize :=
  { self with fAccessOCDB := false }

end AliAnalysisTaskEMCALClusterize

/-! ## Sample inputs -/

namespace Samples

/-- A three-bin likelihood histogram: contents 1/2, 3/10, 1/5 in bins 1, 2, 3. -/
def hist : TH1 :=
  { first := 1, last := 3,
    content := fun i => if i = 1 then 1/2 else if i = 2 then 3/10 else if i = 3 then 1/5 else 0,
    entries := 10,
    binCenter := fun i => (2 * (i : ℚ) - 1) / 6 }

/-- A likelihood projection with one momentum bin, every slice being `hist`. -/
def like : TH2 :=
  { nbinsX := 1, lastX := 1, binCenterX := fun _ => 1, binWidthX := fun _ => 1,
    ProjectionY := fun _ => hist }

/-- A stand-in for the framework: every projection is `like`, integral and scaling act on the
axis range, adding histograms concatenates their fills, and a fit yields four zeros. -/
def root : ROOT :=
  { FindBin := fun _ _ _ => 1,
    Projection := fun _ _ _ => like,
    Integral := fun h => ∑ i in Finset.Icc h.first h.last, h.content i,
    Scale := fun h c => { h with content := fun i => c * h.content i },
    Add := fun h o => match o with
      | none => h
      | some g => { fills := h.fills ++ g.fills },
    Fit := fun _ _ => [0, 0, 0, 0] }

/-- A TRD QA object after `Init`: the four histograms exist and are empty, no result list
has been created. -/
def qa : AliHFEtrdPIDqa :=
  { fLikeTRD := some { fills := [] }, fQAtrack := some { fills := [] },
    fQAdEdx := some { fills := [] }, fTRDtruncMean := some { fills := [] },
    fPionEfficiencies := none, fProtonEfficiencies := none, fKaonEfficiencies := none,
    fThresholds := none, fTRDpid := some { name := "QAtrdPID" } }

/-- The six threshold graphs of one tracklet count, without points. -/
def thresholdGraphs : List TGraph :=
  [{ name := "eff70", points := [] }, { name := "eff75", points := [] },
   { name := "eff80", points := [] }, { name := "eff85", points := [] },
   { name := "eff90", points := [] }, { name := "eff95", points := [] }]

/-- A TRD QA object whose threshold lists for 4, 5 and 6 tracklets exist, each holding its
six threshold graphs. -/
def qaWithThresholds : AliHFEtrdPIDqa :=
  { qa with
    fThresholds := some
      { name := "thresholds",
        objects := [{ name := "4Tracklets", objects := thresholdGraphs },
                    { name := "5Tracklets", objects := thresholdGraphs },
                    { name := "6Tracklets", objects := thresholdGraphs }] } }

/-- A TPC QA object after `Initialize`: the histogram collection exists. -/
def tpcQA : AliHFEtpcPIDqa := { fHistos := some { histos := [] }, fESDpid := none }

/-- A collection with one TRD QA object, one TPC QA object and one object of another class. -/
def collection : List TObject :=
  [TObject.trdQA qa, TObject.other "TH1F", TObject.tpcQA tpcQA]

/-- A stand-in for `AliHFEcollection::Merge`: the histograms of all collections in the list
are put behind those of the receiving collection. -/
def collMerge (c : AliHFEcollection) (l : List (Option AliHFEcollection)) : AliHFEcollection :=
  { histos := c.histos ++ (l.filterMap id).flatMap AliHFEcollection.histos }

/-- The momentum of the most recent `SetMomentum` call of a call sequence, zero if none. -/
def lastMomentum : List TrackCall → TVector3
  | [] => ⟨0, 0, 0⟩
  | TrackCall.SetMomentum px py pz :: _ => ⟨px, py, pz⟩
  | _ :: rest => lastMomentum rest

/-- A stand-in for the daughter class and the framework: a daughter is set once it was given
a track, its momentum is the last one set, its ID and charge vectors hold the tag and charge
of that track, every other vector holds one zero entry; the angles read off one component
each, the impact parameter is the charge times the sum of the vertex coordinates, and the
square root is exact on squares of rationals. The PDG code of a daughter is 211 times the
charge of its track, and a v0 is matched to the Monte-Carlo particle at the index of its
positive daughter if the array has one there. -/
def methods : TrackMethods :=
  { IsSet := fun d => d.setFromAOD.isSome || d.setFromESD.isSome,
    GetMomentum := fun d => lastMomentum d.calls,
    GetIDTracks := fun d => match d.setFromAOD, d.setFromESD with
      | some t, _ => [(t.tag : Int)]
      | none, some t => [(t.tag : Int)]
      | none, none => [],
    GetCharge := fun d => match d.setFromAOD, d.setFromESD with
      | some t, _ => [t.charge]
      | none, some t => [t.charge]
      | none, none => [],
    GetPhiAtRaidius := fun _ => [[0]],
    GetMCTheta := fun _ => [0],
    GetMCPhi := fun _ => [0],
    Eta := fun v => v.z,
    Theta := fun v => v.x,
    Phi := fun v => v.y,
    GetD := fun t x y _ => (t.charge : ℚ) * (x + y),
    Sqrt := fun q => (Nat.sqrt q.num.toNat : ℚ) / (Nat.sqrt q.den : ℚ),
    GetPDGCode := fun d => match d.setFromAOD, d.setFromESD with
      | some t, _ => 211 * t.charge
      | none, some t => 211 * t.charge
      | none, none => 0,
    MatchToMC := fun v _ mcarray _ _ => if v.PosID < mcarray.length then v.PosID else -1 }

/-- A v0 object before `SetDaughter`: a global track array of size 2 holding a positive
track at index 0 and a negative track at index 1, and two untouched daughters. -/
def v0 : AliFemtoDreamv0 :=
  { fIsMC := false, fEta := [], fTheta := [], fPhi := [], fMCTheta := [], fMCPhi := [],
    fIDTracks := [], fCharge := [], fPhiAtRadius := [],
    fGTI := fun i => if i = 0 then some ⟨0, 1⟩ else if i = 1 then some ⟨1, -1⟩ else none,
    fTrackBufferSize := 2, fHasDaughter := false,
    fpDaug := ⟨[]⟩, fnDaug := ⟨[]⟩, fdcaPrimPos := 0, fdcaPrimNeg := 0,
    fOnlinev0 := false, fv0Mass := 0, fv0Vtx := (0, 0, 0), fdcav0Daug := 0, fdcaPrim := 0,
    flenDecay := 0, fTransRadius := 0, fP := ⟨0, 0, 0⟩, fMCP := ⟨0, 0, 0⟩, fPt := 0,
    fMCPt := 0, fP_TPC := 0, fCPA := 0, fOrigin := PartOrigin.kUnknown, fPDGCode := 3122,
    fMCPDGCode := 0, fPDGMotherWeak := 0, fMotherPDG := 0, fUse := true, fIsSet := true,
    fIsReset := false }

/-- An AOD v0 whose positive daughter is track 0 and whose negative daughter is track 1. -/
def aodV0 : AliAODv0 :=
  { PosID := 0, NegID := 1, prong0 := ⟨0, 0, 1⟩, prong1 := ⟨0, 0, 1⟩ }

/-- An ESD event with a negative track at index 0 and a positive track at index 1, the
primary vertex at `(1, 2)`. -/
def esdEvent : AliESDEvent :=
  { GetTrack := fun i => if i = 0 then some ⟨0, -1⟩ else if i = 1 then some ⟨1, 1⟩ else none,
    vtxX := 1, vtxY := 2, magneticField := 5 }

/-- An ESD v0 whose daughter indices are crossed: `GetPindex()` gives the negative track 0,
`GetNindex()` the positive track 1. -/
def esdV0 : AliESDv0 :=
  { Pindex := 0, Nindex := 1, momPos := ⟨0, 0, 1⟩, momNeg := ⟨0, 0, 1⟩ }

/-- A v0 object whose daughters both carry the momentum `(0, 0, 1)`. -/
def v0WithDaughters : AliFemtoDreamv0 :=
  { v0 with fHasDaughter := true,
            fpDaug := ⟨[TrackCall.SetMomentum 0 0 1, TrackCall.SetTrackAOD ⟨0, 1⟩]⟩,
            fnDaug := ⟨[TrackCall.SetMomentum 0 0 1, TrackCall.SetTrackAOD ⟨1, -1⟩]⟩ }

/-- A decay vertex on the z axis, `(0, 0, 5)`. -/
def decayVtx : Nat → ℚ := fun i => if i = 2 then 5 else 0

/-- The origin `(0, 0, 0)`. -/
def origin : Nat → ℚ := fun _ => 0

/-- An ESD v0 whose positive-daughter momentum `(1, 0, 0)` and negative-daughter momentum
`(0, 1, 0)` differ. -/
def esdV0Skew : AliESDv0 :=
  { Pindex := 1, Nindex := 0, momPos := ⟨1, 0, 0⟩, momNeg := ⟨0, 1, 0⟩ }

/-- An AOD v0 whose prong 0 has momentum `(1, 0, 0)` and whose prong 1 has `(0, 1, 0)`. -/
def aodV0Skew : AliAODv0 :=
  { PosID := 0, NegID := 1, prong0 := ⟨1, 0, 0⟩, prong1 := ⟨0, 1, 0⟩ }

/-- The stand-in `methods`, except that the phi-at-radius vector of a daughter holds one
entry made of the charge of the track it was set from. -/
def methodsPhi : TrackMethods :=
  { methods with
    GetPhiAtRaidius := fun d => match d.setFromAOD, d.setFromESD with
      | some t, _ => [[(t.charge : ℚ)]]
      | none, some t => [[(t.charge : ℚ)]]
      | none, none => [] }

/-- A Monte-Carlo array with a lambda from a weak decay at index 0 and its mother, a primary
xi, at index 1. -/
def mcarray : List AliAODMCParticle :=
  [{ PdgCode := 3122, PxPyPz := ⟨0, 0, 2⟩, Pt := 0, Phi := 0, Theta := 0,
     IsPhysicalPrimary := false, IsSecondaryFromWeakDecay := true,
     IsSecondaryFromMaterial := false, GetMother := 1 },
   { PdgCode := 3312, PxPyPz := ⟨0, 0, 3⟩, Pt := 0, Phi := 0, Theta := 0,
     IsPhysicalPrimary := true, IsSecondaryFromWeakDecay := false,
     IsSecondaryFromMaterial := false, GetMother := -1 }]

/-- A stand-in for the ESD track and PID calls: the track with tag 0 has the status bits
`kTRDout` and `kTPCout`, every other track only `kTPCout`; a positive track has outer
parameters with momentum 4, every track has inner parameters with momentum 3 and its own
momentum 2; the remaining calls give fixed values. -/
def esdMethods : ESDMethods :=
  { GetStatus := fun t => if t.tag = 0 then 0x0220 else 0x0020,
    P := fun _ => 2,
    GetInnerParam := fun _ => some 3,
    GetOuterParam := fun t => if t.charge > 0 then some 4 else none,
    GetTPCsignal := fun _ => 50,
    GetTRDpid := fun _ i => if i = 0 then 9/10 else 0,
    GetTRDntrackletsPID := fun _ => 6,
    GetTRDncls := fun _ => 100,
    GetNumberOfTRDslices := fun _ => 8,
    GetTRDslice := fun _ _ _ => 1,
    NumberOfSigmasTPC := fun _ _ _ => 1/2,
    GetTRDSignalV1 := fun _ _ => 10,
    GetTRDSignalV2 := fun _ _ => 20 }

/-- A positive ESD track with tag 0: a TRD track for `esdMethods`. -/
def trdTrack : AliESDtrack := { tag := 0, charge := 1 }

/-- A negative ESD track with tag 1: not a TRD track for `esdMethods`. -/
def tpcOnlyTrack : AliESDtrack := { tag := 1, charge := -1 }

/-- A TPC QA object after `Initialize` with a PID object: both histograms exist and are
empty. -/
def tpcQAInit : AliHFEtpcPIDqa :=
  { fHistos := some { histos := [("tpcDedx", { fills := [] }), ("tpcnSigma", { fills := [] })] },
    fESDpid := some { tag := 0 } }

/-- A stand-in for the projection of the TPC histograms: always `like`. -/
def proj : THnSparseF → Int × Int → Option (Int × Int) → TH2 := fun _ _ _ => like

/-- The particle names of `AliPID::ParticleName` for the five species. -/
def ParticleName (species : Int) : String :=
  if species = 0 then "electron" else if species = 1 then "muon"
  else if species = 2 then "pion" else if species = 3 then "kaon"
  else if species = 4 then "proton" else ""

/-- An EMCAL clusterization task with both data-base flags off. -/
def taskOff : AliAnalysisTaskEMCALClusterize :=
  { fOCDBpath := "", fAccessOCDB := false, fOADBSet := false, fAccessOADB := false,
    fOADBFilePath := "" }

/-- An EMCAL clusterization task with both data-base flags on. -/
def taskOn : AliAnalysisTaskEMCALClusterize :=
  { fOCDBpath := "", fAccessOCDB := true, fOADBSet := false, fAccessOADB := true,
    fOADBFilePath := "" }

end Samples

/-! # Part II: lemmas and theorems -/

namespace AliHFEtrdPIDqa

/-! ## Threshold search and efficiency integral -/

end AliHFEtrdPIDqa

namespace AliHFEtrdPIDqa

/-! ## Result lists -/

/-- The graph names made from the six electron efficiencies. -/
theorem effName_values :
    fgkElectronEff.map effName = ["eff70", "eff75", "eff80", "eff85", "eff90", "eff95"] := by
  have h1 : toInt_t ((7/10 : ℚ) * 100) = 70 := by norm_num [toInt_t]
  have h2 : toInt_t ((3/4 : ℚ) * 100) = 75 := by norm_num [toInt_t]
  have h3 : toInt_t ((4/5 : ℚ) * 100) = 80 := by norm_num [toInt_t]
  have h4 : toInt_t ((17/20 : ℚ) * 100) = 85 := by norm_num [toInt_t]
  have h5 : toInt_t ((9/10 : ℚ) * 100) = 90 := by norm_num [toInt_t]
  have h6 : toInt_t ((19/20 : ℚ) * 100) = 95 := by norm_num [toInt_t]
  simp only [fgkElectronEff, effName, List.map, h1, h2, h3, h4, h5, h6]
  decide

/-- One pass of the momentum loop changes points only, never the names of the graphs. -/
theorem AnalyseNTracklets.momentumStep_names (root : ROOT) (e p r : TH2) (eff : ℚ)
    (g : EffGraphs) (imom : Int) :
    (momentumStep root e p r eff g imom).effPi.name = g.effPi.name ∧
    (momentumStep root e p r eff g imom).effPr.name = g.effPr.name ∧
    (momentumStep root e p r eff g imom).thresholds.name = g.thresholds.name := by
  unfold momentumStep
  simp only
  split_ifs <;>
    simp [TGraphErrors.SetPoint, TGraphErrors.SetPointError, TGraph.SetPoint]

/-- The whole momentum loop keeps the names of the graphs. -/
theorem AnalyseNTracklets.momentumLoop_names (root : ROOT) (e p r : TH2) (eff : ℚ) :
    ∀ (bins : List Int) (g : EffGraphs),
      (bins.foldl (momentumStep root e p r eff) g).effPi.name = g.effPi.name ∧
      (bins.foldl (momentumStep root e p r eff) g).effPr.name = g.effPr.name ∧
      (bins.foldl (momentumStep root e p r eff) g).thresholds.name = g.thresholds.name := by
  intro bins
  induction bins with
  | nil => intro g; simp
  | cons b bs ih =>
    intro g
    obtain ⟨h1, h2, h3⟩ := ih (momentumStep root e p r eff g b)
    obtain ⟨k1, k2, k3⟩ := momentumStep_names root e p r eff g b
    simp only [List.foldl_cons]
    exact ⟨h1.trans k1, h2.trans k2, h3.trans k3⟩

/-- One pass of the efficiency loop keeps the names of the three lists and appends one graph
named after the efficiency to each. -/
theorem AnalyseNTracklets.efficiencyStep_names (root : ROOT) (e p r : TH2) (l : EffLists)
    (eff : ℚ) :
    (efficiencyStep root e p r l eff).listPions.name = l.listPions.name ∧
    (efficiencyStep root e p r l eff).listProtons.name = l.listProtons.name ∧
    (efficiencyStep root e p r l eff).listThresholds.name = l.listThresholds.name ∧
    (efficiencyStep root e p r l eff).listPions.objects.map TGraphErrors.name
      = l.listPions.objects.map TGraphErrors.name ++ [effName eff] ∧
    (efficiencyStep root e p r l eff).listProtons.objects.map TGraphErrors.name
      = l.listProtons.objects.map TGraphErrors.name ++ [effName eff] ∧
    (efficiencyStep root e p r l eff).listThresholds.objects.map TGraph.name
      = l.listThresholds.objects.map TGraph.name ++ [effName eff] := by
  unfold efficiencyStep
  simp only [TList.Add, List.map_append, List.map_cons, List.map_nil]
  obtain ⟨h1, h2, h3⟩ := momentumLoop_names root e p r eff
    ((List.range e.lastX.toNat).map (fun k => (k : Int) + 1))
    { effPi := (TGraphErrors.new e.nbinsX).SetName (effName eff),
      effPr := (TGraphErrors.new e.nbinsX).SetName (effName eff),
      thresholds := (TGraph.new e.nbinsX).SetName (effName eff) }
  rw [h1, h2, h3]
  simp [TGraphErrors.SetName, TGraph.SetName]

/-- The whole efficiency loop keeps the names of the three lists and appends one graph per
efficiency, in order. -/
theorem AnalyseNTracklets.efficiencyLoop_names (root : ROOT) (e p r : TH2) :
    ∀ (effs : List ℚ) (l : EffLists),
      (effs.foldl (efficiencyStep root e p r) l).listPions.name = l.listPions.name ∧
      (effs.foldl (efficiencyStep root e p r) l).listProtons.name = l.listProtons.name ∧
      (effs.foldl (efficiencyStep root e p r) l).listThresholds.name = l.listThresholds.name ∧
      (effs.foldl (efficiencyStep root e p r) l).listPions.objects.map TGraphErrors.name
        = l.listPions.objects.map TGraphErrors.name ++ effs.map effName ∧
      (effs.foldl (efficiencyStep root e p r) l).listProtons.objects.map TGraphErrors.name
        = l.listProtons.objects.map TGraphErrors.name ++ effs.map effName ∧
      (effs.foldl (efficiencyStep root e p r) l).listThresholds.objects.map TGraph.name
        = l.listThresholds.objects.map TGraph.name ++ effs.map effName := by
  intro effs
  induction effs with
  | nil => intro l; simp
  | cons x xs ih =>
    intro l
    obtain ⟨h1, h2, h3, h4, h5, h6⟩ := ih (efficiencyStep root e p r l x)
    obtain ⟨k1, k2, k3, k4, k5, k6⟩ := efficiencyStep_names root e p r l x
    simp only [List.foldl_cons, List.map_cons]
    refine ⟨h1.trans k1, h2.trans k2, h3.trans k3, ?_, ?_, ?_⟩
    · rw [h4, k4]; simp
    · rw [h5, k5]; simp
    · rw [h6, k6]; simp

/-- Effect of `AnalyseNTracklets` on an object whose likelihood histogram and three result
lists exist: it returns, appends one well-formed `<n>Tracklets` list to each of the three
result lists and changes nothing else. -/
theorem AnalyseNTracklets_effect (root : ROOT) (self : AliHFEtrdPIDqa) (n : Int)
    (h : THnSparseF) (P R : TList (TList TGraphErrors)) (T : TList (TList TGraph))
    (hh : self.fLikeTRD = some h) (hP : self.fPionEfficiencies = some P)
    (hR : self.fProtonEfficiencies = some R) (hT : self.fThresholds = some T) :
    ∃ (lp lr : TList TGraphErrors) (lt : TList TGraph),
      IsTrackletList TGraphErrors.name n lp ∧ IsTrackletList TGraphErrors.name n lr ∧
      IsTrackletList TGraph.name n lt ∧
      AnalyseNTracklets root self n = some { self with
        fPionEfficiencies := some (P.Add lp),
        fProtonEfficiencies := some (R.Add lr),
        fThresholds := some (T.Add lt) } := by
  unfold AnalyseNTracklets
  simp only [hh, hP, hR, hT]
  obtain ⟨h1, h2, h3, h4, h5, h6⟩ := AnalyseNTracklets.efficiencyLoop_names root
    (root.Projection h (root.FindBin h kNTracklets n) (root.FindBin h kSpecies kElectron))
    (root.Projection h (root.FindBin h kNTracklets n) (root.FindBin h kSpecies kPion))
    (root.Projection h (root.FindBin h kNTracklets n) (root.FindBin h kSpecies kProton))
    fgkElectronEff
    { listPions := { name := trackletsName n, objects := [] },
      listProtons := { name := trackletsName n, objects := [] },
      listThresholds := { name := trackletsName n, objects := [] } }
  rw [effName_values] at h4 h5 h6
  exact ⟨_, _, _, ⟨h1, by simpa using h4⟩, ⟨h2, by simpa using h5⟩, ⟨h3, by simpa using h6⟩, rfl⟩

end AliHFEtrdPIDqa

namespace AliHFEtrdPIDqa

/-- The first part of `FinishAnalysis` keeps existing result lists and creates the missing
ones under their names. -/
theorem FinishAnalysis.createLists_eq (self : AliHFEtrdPIDqa) :
    FinishAnalysis.createLists self = { self with
      fPionEfficiencies :=
        some (self.fPionEfficiencies.getD { name := "pionEfficiencies", objects := [] }),
      fProtonEfficiencies :=
        some (self.fProtonEfficiencies.getD { name := "protonEfficiencies", objects := [] }),
      fThresholds :=
        some (self.fThresholds.getD { name := "thresholds", objects := [] }) } := by
  obtain ⟨a, b, c, d, P, R, K, T, pid⟩ := self
  cases P <;> cases R <;> cases T <;> simp [FinishAnalysis.createLists]

/-- Effect of `FinishAnalysis` on an object whose likelihood histogram exists: it returns,
and each of the pion, proton and threshold lists (created under its name if it was missing)
gets three well-formed lists for 4, 5 and 6 tracklets appended in that order; nothing else
changes. -/
theorem FinishAnalysis_effect (root : ROOT) (self : AliHFEtrdPIDqa) (h : THnSparseF)
    (hh : self.fLikeTRD = some h) :
    ∃ (p4 p5 p6 r4 r5 r6 : TList TGraphErrors) (t4 t5 t6 : TList TGraph),
      (IsTrackletList TGraphErrors.name 4 p4 ∧ IsTrackletList TGraphErrors.name 5 p5 ∧
        IsTrackletList TGraphErrors.name 6 p6) ∧
      (IsTrackletList TGraphErrors.name 4 r4 ∧ IsTrackletList TGraphErrors.name 5 r5 ∧
        IsTrackletList TGraphErrors.name 6 r6) ∧
      (IsTrackletList TGraph.name 4 t4 ∧ IsTrackletList TGraph.name 5 t5 ∧
        IsTrackletList TGraph.name 6 t6) ∧
      FinishAnalysis root self = some { self with
        fPionEfficiencies := some ((((self.fPionEfficiencies.getD
          { name := "pionEfficiencies", objects := [] }).Add p4).Add p5).Add p6),
        fProtonEfficiencies := some ((((self.fProtonEfficiencies.getD
          { name := "protonEfficiencies", objects := [] }).Add r4).Add r5).Add r6),
        fThresholds := some ((((self.fThresholds.getD
          { name := "thresholds", objects := [] }).Add t4).Add t5).Add t6) } := by
  unfold FinishAnalysis
  rw [FinishAnalysis.createLists_eq]
  obtain ⟨a, b, c, d, P, R, K, T, pid⟩ := self
  simp only at hh
  subst hh
  obtain ⟨p4, r4, t4, hp4, hr4, ht4, e4⟩ := AnalyseNTracklets_effect root
    { fLikeTRD := some h, fQAtrack := b, fQAdEdx := c, fTRDtruncMean := d,
      fPionEfficiencies := some (P.getD { name := "pionEfficiencies", objects := [] }),
      fProtonEfficiencies := some (R.getD { name := "protonEfficiencies", objects := [] }),
      fKaonEfficiencies := K, fTRDpid := pid,
      fThresholds := some (T.getD { name := "thresholds", objects := [] }) }
    4 h _ _ _ rfl rfl rfl rfl
  obtain ⟨p5, r5, t5, hp5, hr5, ht5, e5⟩ := AnalyseNTracklets_effect root
    { fLikeTRD := some h, fQAtrack := b, fQAdEdx := c, fTRDtruncMean := d,
      fPionEfficiencies :=
        some ((P.getD { name := "pionEfficiencies", objects := [] }).Add p4),
      fProtonEfficiencies :=
        some ((R.getD { name := "protonEfficiencies", objects := [] }).Add r4),
      fKaonEfficiencies := K, fTRDpid := pid,
      fThresholds := some ((T.getD { name := "thresholds", objects := [] }).Add t4) }
    5 h _ _ _ rfl rfl rfl rfl
  obtain ⟨p6, r6, t6, hp6, hr6, ht6, e6⟩ := AnalyseNTracklets_effect root
    { fLikeTRD := some h, fQAtrack := b, fQAdEdx := c, fTRDtruncMean := d,
      fPionEfficiencies :=
        some (((P.getD { name := "pionEfficiencies", objects := [] }).Add p4).Add p5),
      fProtonEfficiencies :=
        some (((R.getD { name := "protonEfficiencies", objects := [] }).Add r4).Add r5),
      fKaonEfficiencies := K, fTRDpid := pid,
      fThresholds :=
        some (((T.getD { name := "thresholds", objects := [] }).Add t4).Add t5) }
    6 h _ _ _ rfl rfl rfl rfl
  refine ⟨p4, p5, p6, r4, r5, r6, t4, t5, t6, ⟨hp4, hp5, hp6⟩, ⟨hr4, hr5, hr6⟩,
    ⟨ht4, ht5, ht6⟩, ?_⟩
  simp only [List.foldlM, bind, Option.bind]
  simp only at e4 e5 e6
  rw [e4]
  simp only
  rw [e5]
  simp only
  rw [e6]
  rfl

end AliHFEtrdPIDqa

namespace AliHFEtrdPIDqa

/-! ## Saving the threshold parametrisation -/

/-- The function names made from the six electron efficiencies for 4, 5 and 6 tracklets. -/
theorem threshName_values :
    fgkElectronEff.map (threshName 4)
      = ["thresh_4_70", "thresh_4_75", "thresh_4_80", "thresh_4_85", "thresh_4_90",
         "thresh_4_95"] ∧
    fgkElectronEff.map (threshName 5)
      = ["thresh_5_70", "thresh_5_75", "thresh_5_80", "thresh_5_85", "thresh_5_90",
         "thresh_5_95"] ∧
    fgkElectronEff.map (threshName 6)
      = ["thresh_6_70", "thresh_6_75", "thresh_6_80", "thresh_6_85", "thresh_6_90",
         "thresh_6_95"] := by
  have h1 : toInt_t ((7/10 : ℚ) * 100) = 70 := by norm_num [toInt_t]
  have h2 : toInt_t ((3/4 : ℚ) * 100) = 75 := by norm_num [toInt_t]
  have h3 : toInt_t ((4/5 : ℚ) * 100) = 80 := by norm_num [toInt_t]
  have h4 : toInt_t ((17/20 : ℚ) * 100) = 85 := by norm_num [toInt_t]
  have h5 : toInt_t ((9/10 : ℚ) * 100) = 90 := by norm_num [toInt_t]
  have h6 : toInt_t ((19/20 : ℚ) * 100) = 95 := by norm_num [toInt_t]
  simp only [fgkElectronEff, threshName, List.map, h1, h2, h3, h4, h5, h6]
  decide

/-- One pass of the inner loop of `SaveThresholdParameters`, when the graph is found: the
fitted function is recorded under its name, the output list and the errors stay as they
were. -/
theorem SaveThresholdParameters.efficiencyStep_found (root : ROOT) (n : Int)
    (lHistos : TList TGraph) (st : SaveState) (eff : ℚ)
    (hfound : (lHistos.FindObject TGraph.name (effName eff)).isSome) :
    ∃ st', efficiencyStep root n lHistos st eff = some st' ∧
      st'.outlist = st.outlist ∧ st'.errors = st.errors ∧
      st'.fitted.map TF1.name = st.fitted.map TF1.name ++ [threshName n eff] := by
  obtain ⟨g, hg⟩ := Option.isSome_iff_exists.mp hfound
  unfold efficiencyStep
  simp [hg, MakeThresholds]

/-- The whole inner loop of `SaveThresholdParameters`, when every graph is found: one fitted
function per efficiency is recorded, the output list and the errors stay as they were. -/
theorem SaveThresholdParameters.efficiencyLoop_found (root : ROOT) (n : Int)
    (lHistos : TList TGraph) :
    ∀ (effs : List ℚ) (st : SaveState),
      (∀ e ∈ effs, (lHistos.FindObject TGraph.name (effName e)).isSome) →
      ∃ st', effs.foldlM (efficiencyStep root n lHistos) st = some st' ∧
        st'.outlist = st.outlist ∧ st'.errors = st.errors ∧
        st'.fitted.map TF1.name = st.fitted.map TF1.name ++ effs.map (threshName n) := by
  intro effs
  induction effs with
  | nil => intro st _; exact ⟨st, rfl, rfl, rfl, by simp⟩
  | cons x xs ih =>
    intro st hall
    obtain ⟨st1, e1, o1, r1, f1⟩ := efficiencyStep_found root n lHistos st x
      (hall x (List.mem_cons_self _ _))
    obtain ⟨st2, e2, o2, r2, f2⟩ := ih st1 (fun e he => hall e (List.mem_cons_of_mem _ he))
    refine ⟨st2, ?_, o2.trans o1, r2.trans r1, ?_⟩
    · simp only [List.foldlM, bind, Option.bind, e1]
      exact e2
    · rw [f2, f1]; simp

/-- One pass of the outer loop of `SaveThresholdParameters`, when the threshold list of the
tracklet count and all its graphs are found: an empty list `<n>Tracklets` is appended to the
output list and it stays empty. -/
theorem SaveThresholdParameters.trackletStep_found (root : ROOT)
    (fThresholds : TList (TList TGraph)) (st : SaveState) (n : Int) (lHistos : TList TGraph)
    (hlist : fThresholds.FindObject TList.name (trackletsName n) = some lHistos)
    (hall : ∀ e ∈ fgkElectronEff, (lHistos.FindObject TGraph.name (effName e)).isSome) :
    ∃ st', trackletStep root fThresholds st n = some st' ∧
      st'.outlist = st.outlist.Add { name := trackletsName n, objects := [] } ∧
      st'.errors = st.errors ∧
      st'.fitted.map TF1.name = st.fitted.map TF1.name ++ fgkElectronEff.map (threshName n) := by
  unfold trackletStep
  simp only [hlist]
  exact efficiencyLoop_found root n lHistos fgkElectronEff _ hall

/-- Every electron efficiency has its graph in the sample list of threshold graphs. -/
theorem sample_thresholdGraphs_found (name : String) :
    ∀ e ∈ fgkElectronEff,
      ((({ name := name, objects := Samples.thresholdGraphs } : TList TGraph).FindObject
        TGraph.name (effName e))).isSome := by
  intro e he
  have hmem : effName e ∈ fgkElectronEff.map effName := List.mem_map_of_mem _ he
  rw [effName_values] at hmem
  simp only [List.mem_cons, List.mem_singleton, List.not_mem_nil, or_false] at hmem
  rcases hmem with h | h | h | h | h | h <;> rw [h] <;> simp only [TList.FindObject] <;> decide

end AliHFEtrdPIDqa

namespace AliHFEtrdPIDqa

/-- C4 (the code at the failing input): on an object whose threshold lists for 4, 5 and 6
tracklets hold all six threshold graphs, `SaveThresholdParameters` fits and names the 18
functions `thresh_<n>_<100*e>`, yet the output list `thresholdTRD` it writes holds the three
lists `4Tracklets`, `5Tracklets`, `6Tracklets` with no object in any of them: no fitted
function reaches the file. -/
theorem SaveThresholdParameters_writes_empty_lists (root : ROOT) :
    ∃ r f, SaveThresholdParameters root Samples.qaWithThresholds "thresholds.root" = some r ∧
      r.outfile = some f ∧ f.filename = "thresholds.root" ∧ f.key = "thresholdTRD" ∧
      f.object = { name := "thresholdTRD",
                   objects := [{ name := "4Tracklets", objects := [] },
                               { name := "5Tracklets", objects := [] },
                               { name := "6Tracklets", objects := [] }] } ∧
      r.fitted.map TF1.name
        = ["thresh_4_70", "thresh_4_75", "thresh_4_80", "thresh_4_85", "thresh_4_90",
           "thresh_4_95", "thresh_5_70", "thresh_5_75", "thresh_5_80", "thresh_5_85",
           "thresh_5_90", "thresh_5_95", "thresh_6_70", "thresh_6_75", "thresh_6_80",
           "thresh_6_85", "thresh_6_90", "thresh_6_95"] := by
  obtain ⟨n4, n5, n6⟩ := threshName_values
  obtain ⟨s1, e1, o1, _, f1⟩ := SaveThresholdParameters.trackletStep_found root
    { name := "thresholds",
      objects := [{ name := "4Tracklets", objects := Samples.thresholdGraphs },
                  { name := "5Tracklets", objects := Samples.thresholdGraphs },
                  { name := "6Tracklets", objects := Samples.thresholdGraphs }] }
    { errors := [], fitted := [], outlist := { name := "thresholdTRD", objects := [] } }
    4 { name := "4Tracklets", objects := Samples.thresholdGraphs } (by decide)
    (sample_thresholdGraphs_found "4Tracklets")
  obtain ⟨s2, e2, o2, _, f2⟩ := SaveThresholdParameters.trackletStep_found root
    { name := "thresholds",
      objects := [{ name := "4Tracklets", objects := Samples.thresholdGraphs },
                  { name := "5Tracklets", objects := Samples.thresholdGraphs },
                  { name := "6Tracklets", objects := Samples.thresholdGraphs }] }
    s1 5 { name := "5Tracklets", objects := Samples.thresholdGraphs } (by decide)
    (sample_thresholdGraphs_found "5Tracklets")
  obtain ⟨s3, e3, o3, _, f3⟩ := SaveThresholdParameters.trackletStep_found root
    { name := "thresholds",
      objects := [{ name := "4Tracklets", objects := Samples.thresholdGraphs },
                  { name := "5Tracklets", objects := Samples.thresholdGraphs },
                  { name := "6Tracklets", objects := Samples.thresholdGraphs }] }
    s2 6 { name := "6Tracklets", objects := Samples.thresholdGraphs } (by decide)
    (sample_thresholdGraphs_found "6Tracklets")
  have hrun : ([4, 5, 6] : List Int).foldlM
      (SaveThresholdParameters.trackletStep root
        { name := "thresholds",
          objects := [{ name := "4Tracklets", objects := Samples.thresholdGraphs },
                      { name := "5Tracklets", objects := Samples.thresholdGraphs },
                      { name := "6Tracklets", objects := Samples.thresholdGraphs }] })
      { errors := [], fitted := [], outlist := { name := "thresholdTRD", objects := [] } }
      = some s3 := by
    simp only [List.foldlM, bind, Option.bind, e1, e2, e3]
    rfl
  have hout : s3.outlist
      = ⟨"thresholdTRD", [⟨"4Tracklets", []⟩, ⟨"5Tracklets", []⟩, ⟨"6Tracklets", []⟩]⟩ := by
    rw [o3, o2, o1]
    decide
  have hfit : s3.fitted.map TF1.name
      = ["thresh_4_70", "thresh_4_75", "thresh_4_80", "thresh_4_85", "thresh_4_90",
         "thresh_4_95", "thresh_5_70", "thresh_5_75", "thresh_5_80", "thresh_5_85",
         "thresh_5_90", "thresh_5_95", "thresh_6_70", "thresh_6_75", "thresh_6_80",
         "thresh_6_85", "thresh_6_90", "thresh_6_95"] := by
    rw [f3, f2, f1, n4, n5, n6]
    rfl
  refine ⟨{ errors := s3.errors, fitted := s3.fitted, outlist := some s3.outlist,
            outfile := some { filename := "thresholds.root", key := s3.outlist.name,
                              object := s3.outlist },
            self := Samples.qaWithThresholds },
          { filename := "thresholds.root", key := s3.outlist.name, object := s3.outlist },
          ?_, rfl, rfl, ?_, hout, hfit⟩
  · unfold SaveThresholdParameters
    simp only [Samples.qaWithThresholds, hrun]
  · simp only [hout]

/-- C5 (the code at the failing input): on a QA object after `Init`, `FinishAnalysis`
returns with the pion and proton efficiency lists holding the sub-lists `4Tracklets`,
`5Tracklets`, `6Tracklets`, each with the six graphs `eff70 .. eff95`, but the kaon
efficiency list is still `NULL`: no kaon efficiency is calculated. -/
theorem FinishAnalysis_leaves_kaon_list_null (root : ROOT) :
    ∃ s' P R, FinishAnalysis root Samples.qa = some s' ∧
      s'.fKaonEfficiencies = none ∧
      s'.fPionEfficiencies = some P ∧ s'.fProtonEfficiencies = some R ∧
      P.objects.map TList.name = ["4Tracklets", "5Tracklets", "6Tracklets"] ∧
      R.objects.map TList.name = ["4Tracklets", "5Tracklets", "6Tracklets"] ∧
      (∀ l ∈ P.objects, l.objects.map TGraphErrors.name
        = ["eff70", "eff75", "eff80", "eff85", "eff90", "eff95"]) ∧
      (∀ l ∈ R.objects, l.objects.map TGraphErrors.name
        = ["eff70", "eff75", "eff80", "eff85", "eff90", "eff95"]) := by
  obtain ⟨p4, p5, p6, r4, r5, r6, t4, t5, t6, ⟨hp4, hp5, hp6⟩, ⟨hr4, hr5, hr6⟩, _, hrun⟩ :=
    FinishAnalysis_effect root Samples.qa { fills := [] } rfl
  refine ⟨_, _, _, hrun, rfl, rfl, rfl, ?_, ?_, ?_, ?_⟩
  · simp only [Samples.qa, Option.getD, TList.Add, List.nil_append, List.cons_append,
      List.map_cons, List.map_nil, hp4.1, hp5.1, hp6.1]
    decide
  · simp only [Samples.qa, Option.getD, TList.Add, List.nil_append, List.cons_append,
      List.map_cons, List.map_nil, hr4.1, hr5.1, hr6.1]
    decide
  · intro l hl
    simp only [Samples.qa, Option.getD, TList.Add, List.nil_append, List.cons_append,
      List.mem_cons, List.mem_singleton, List.not_mem_nil, or_false] at hl
    rcases hl with h | h | h <;> rw [h]
    · exact hp4.2
    · exact hp5.2
    · exact hp6.2
  · intro l hl
    simp only [Samples.qa, Option.getD, TList.Add, List.nil_append, List.cons_append,
      List.mem_cons, List.mem_singleton, List.not_mem_nil, or_false] at hl
    rcases hl with h | h | h <;> rw [h]
    · exact hr4.2
    · exact hr5.2
    · exact hr6.2

/-- C6: called on an object whose likelihood histogram exists and whose result lists are not
yet created, `FinishAnalysis` returns; it is `AnalyseNTracklets(4)`, then
`AnalyseNTracklets(5)`, then `AnalyseNTracklets(6)` run on the object with its lists created,
and afterwards the lists `pionEfficiencies`, `protonEfficiencies` and `thresholds` each hold
exactly the three sub-lists `4Tracklets`, `5Tracklets`, `6Tracklets` in that order. -/
theorem FinishAnalysis_three_tracklet_lists (root : ROOT) (self : AliHFEtrdPIDqa)
    (hlike : self.fLikeTRD ≠ none)
    (hP : self.fPionEfficiencies = none) (hR : self.fProtonEfficiencies = none)
    (hT : self.fThresholds = none) :
    FinishAnalysis root self
      = (AnalyseNTracklets root (FinishAnalysis.createLists self) 4).bind (fun s4 =>
          (AnalyseNTracklets root s4 5).bind (fun s5 => AnalyseNTracklets root s5 6)) ∧
    ∃ s' P R T, FinishAnalysis root self = some s' ∧
      s'.fPionEfficiencies = some P ∧ s'.fProtonEfficiencies = some R ∧
      s'.fThresholds = some T ∧
      P.name = "pionEfficiencies" ∧ R.name = "protonEfficiencies" ∧ T.name = "thresholds" ∧
      P.objects.map TList.name = ["4Tracklets", "5Tracklets", "6Tracklets"] ∧
      R.objects.map TList.name = ["4Tracklets", "5Tracklets", "6Tracklets"] ∧
      T.objects.map TList.name = ["4Tracklets", "5Tracklets", "6Tracklets"] := by
  constructor
  · unfold FinishAnalysis
    simp only [List.foldlM, bind, Option.bind]
    cases AnalyseNTracklets root (FinishAnalysis.createLists self) 4 with
    | none => rfl
    | some s4 =>
      simp only
      cases AnalyseNTracklets root s4 5 with
      | none => rfl
      | some s5 =>
        simp only
        cases AnalyseNTracklets root s5 6 <;> rfl
  · obtain ⟨h, hh⟩ := Option.ne_none_iff_exists'.mp hlike
    obtain ⟨p4, p5, p6, r4, r5, r6, t4, t5, t6, ⟨hp4, hp5, hp6⟩, ⟨hr4, hr5, hr6⟩,
      ⟨ht4, ht5, ht6⟩, hrun⟩ := FinishAnalysis_effect root self h hh
    refine ⟨_, _, _, _, hrun, rfl, rfl, rfl, ?_, ?_, ?_, ?_, ?_, ?_⟩
    · simp [hP, TList.Add]
    · simp [hR, TList.Add]
    · simp [hT, TList.Add]
    · simp only [hP, Option.getD, TList.Add, List.nil_append, List.cons_append,
        List.map_cons, List.map_nil, hp4.1, hp5.1, hp6.1]
      decide
    · simp only [hR, Option.getD, TList.Add, List.nil_append, List.cons_append,
        List.map_cons, List.map_nil, hr4.1, hr5.1, hr6.1]
      decide
    · simp only [hT, Option.getD, TList.Add, List.nil_append, List.cons_append,
        List.map_cons, List.map_nil, ht4.1, ht5.1, ht6.1]
      decide

/-- Witness for C6 on the sample QA object after `Init`. -/
theorem FinishAnalysis_three_tracklet_lists_witness :
    ∃ s' P R T, FinishAnalysis Samples.root Samples.qa = some s' ∧
      s'.fPionEfficiencies = some P ∧ s'.fProtonEfficiencies = some R ∧
      s'.fThresholds = some T ∧
      P.name = "pionEfficiencies" ∧ R.name = "protonEfficiencies" ∧ T.name = "thresholds" ∧
      P.objects.map TList.name = ["4Tracklets", "5Tracklets", "6Tracklets"] ∧
      R.objects.map TList.name = ["4Tracklets", "5Tracklets", "6Tracklets"] ∧
      T.objects.map TList.name = ["4Tracklets", "5Tracklets", "6Tracklets"] :=
  (FinishAnalysis_three_tracklet_lists Samples.root Samples.qa (by decide) rfl rfl rfl).2

end AliHFEtrdPIDqa

/-! ## Merging -/

/-- The loop of `AliHFEtrdPIDqa::Merge` counts the objects of class `AliHFEtrdPIDqa`. -/
theorem trd_merge_loop_count (root : ROOT) :
    ∀ (objs : List TObject) (st : Int × AliHFEtrdPIDqa),
      (objs.foldl (AliHFEtrdPIDqa.Merge.step root) st).1
        = st.1 + ((objs.filterMap TObject.asTrdQA).length : Int) := by
  intro objs
  induction objs with
  | nil => intro st; simp
  | cons o os ih =>
    intro st
    rw [List.foldl_cons, ih]
    cases ho : o.asTrdQA with
    | none => simp [AliHFEtrdPIDqa.Merge.step, ho, List.filterMap_cons]
    | some q =>
      simp [AliHFEtrdPIDqa.Merge.step, ho, List.filterMap_cons]
      ring

/-- The loop of `AliHFEtrdPIDqa::Merge` does the same on a collection and on the collection
with all objects of other classes taken out. -/
theorem trd_merge_loop_skip (root : ROOT) :
    ∀ (objs : List TObject) (st : Int × AliHFEtrdPIDqa),
      objs.foldl (AliHFEtrdPIDqa.Merge.step root) st
        = ((objs.filterMap TObject.asTrdQA).map TObject.trdQA).foldl
            (AliHFEtrdPIDqa.Merge.step root) st := by
  intro objs
  induction objs with
  | nil => intro st; rfl
  | cons o os ih =>
    intro st
    rw [List.foldl_cons, ih]
    cases o with
    | trdQA q => simp [TObject.asTrdQA, List.filterMap_cons]
    | tpcQA q => simp [TObject.asTrdQA, List.filterMap_cons, AliHFEtrdPIDqa.Merge.step]
    | other c => simp [TObject.asTrdQA, List.filterMap_cons, AliHFEtrdPIDqa.Merge.step]

/-- The loop of `AliHFEtpcPIDqa::Merge` counts the objects of class `AliHFEtpcPIDqa` and
collects their histogram collections, in order. -/
theorem tpc_merge_loop (objs : List TObject) :
    ∀ (st : Int × List (Option AliHFEcollection)),
      objs.foldl AliHFEtpcPIDqa.Merge.step st
        = (st.1 + ((objs.filterMap TObject.asTpcQA).length : Int),
           st.2 ++ (objs.filterMap TObject.asTpcQA).map AliHFEtpcPIDqa.fHistos) := by
  induction objs with
  | nil => intro st; simp
  | cons o os ih =>
    intro st
    rw [List.foldl_cons, ih]
    cases ho : o.asTpcQA with
    | none => simp [AliHFEtpcPIDqa.Merge.step, ho, List.filterMap_cons]
    | some q =>
      simp [AliHFEtpcPIDqa.Merge.step, ho, List.filterMap_cons]
      ring

/-- C7: `Merge` of both QA classes returns 0 for a null collection, 1 for an empty collection,
and otherwise 1 plus the number of elements that are objects of the same QA class; objects of
any other class are skipped and contribute nothing (merging a collection and merging the
collection without them do the same). For `AliHFEtpcPIDqa` and a non-empty collection this
is what happens on an object whose histogram collection `fHistos` is set; the method
dereferences `fHistos` unguarded, so on an object without it the call does not return. -/
theorem Merge_counts_objects_of_same_class (root : ROOT)
    (collMerge : AliHFEcollection → List (Option AliHFEcollection) → AliHFEcollection)
    (trd : AliHFEtrdPIDqa) (tpc : AliHFEtpcPIDqa) :
    (AliHFEtrdPIDqa.Merge root trd none).1 = 0 ∧
    (AliHFEtpcPIDqa.Merge collMerge tpc none).map Prod.fst = some 0 ∧
    (AliHFEtrdPIDqa.Merge root trd (some [])).1 = 1 ∧
    (AliHFEtpcPIDqa.Merge collMerge tpc (some [])).map Prod.fst = some 1 ∧
    (∀ objs : List TObject, (AliHFEtrdPIDqa.Merge root trd (some objs)).1
        = 1 + ((objs.filterMap TObject.asTrdQA).length : Int)) ∧
    (∀ objs : List TObject, tpc.fHistos ≠ none →
      (AliHFEtpcPIDqa.Merge collMerge tpc (some objs)).map Prod.fst
        = some (1 + ((objs.filterMap TObject.asTpcQA).length : Int))) ∧
    (∀ objs : List TObject, AliHFEtrdPIDqa.Merge root trd (some objs)
        = AliHFEtrdPIDqa.Merge root trd
            (some ((objs.filterMap TObject.asTrdQA).map TObject.trdQA))) ∧
    (∀ (objs : List TObject) (fH : AliHFEcollection), tpc.fHistos = some fH → objs ≠ [] →
      AliHFEtpcPIDqa.Merge collMerge tpc (some objs)
        = some (1 + ((objs.filterMap TObject.asTpcQA).length : Int),
            { tpc with fHistos := some (collMerge fH
                ((objs.filterMap TObject.asTpcQA).map AliHFEtpcPIDqa.fHistos)) })) ∧
    (∀ objs : List TObject, tpc.fHistos = none → objs ≠ [] →
      AliHFEtpcPIDqa.Merge collMerge tpc (some objs) = none) := by
  have htrd : ∀ objs : List TObject, (AliHFEtrdPIDqa.Merge root trd (some objs)).1
      = 1 + ((objs.filterMap TObject.asTrdQA).length : Int) := by
    intro objs
    unfold AliHFEtrdPIDqa.Merge
    cases objs with
    | nil => simp
    | cons o os =>
      simp only [List.isEmpty_cons, Bool.false_eq_true, if_false]
      rw [trd_merge_loop_count]
      ring
  have htpc : ∀ (objs : List TObject) (fH : AliHFEcollection), tpc.fHistos = some fH →
      objs ≠ [] → AliHFEtpcPIDqa.Merge collMerge tpc (some objs)
        = some (1 + ((objs.filterMap TObject.asTpcQA).length : Int),
            { tpc with fHistos := some (collMerge fH
                ((objs.filterMap TObject.asTpcQA).map AliHFEtpcPIDqa.fHistos)) }) := by
    intro objs fH hfH hne
    unfold AliHFEtpcPIDqa.Merge
    cases objs with
    | nil => exact absurd rfl hne
    | cons o os =>
      simp only [List.isEmpty_cons, Bool.false_eq_true, if_false, hfH]
      rw [tpc_merge_loop]
      simp only [List.nil_append, zero_add, Option.some.injEq, Prod.mk.injEq, and_true]
      ring
  refine ⟨rfl, rfl, rfl, rfl, htrd, ?_, ?_, htpc, ?_⟩
  · intro objs hne
    obtain ⟨fH, hfH⟩ := Option.ne_none_iff_exists'.mp hne
    cases objs with
    | nil => rfl
    | cons o os => rw [htpc (o :: os) fH hfH (List.cons_ne_nil _ _)]; rfl
  · intro objs
    unfold AliHFEtrdPIDqa.Merge
    cases objs with
    | nil => rfl
    | cons o os =>
      simp only [List.isEmpty_cons, Bool.false_eq_true, if_false]
      rw [trd_merge_loop_skip]
      cases hf : (List.map TObject.trdQA (List.filterMap TObject.asTrdQA (o :: os))) with
      | nil => simp
      | cons a as => simp
  · intro objs hnone hne
    unfold AliHFEtpcPIDqa.Merge
    cases objs with
    | nil => exact absurd rfl hne
    | cons o os => simp [hnone]

/-- Witness for C7: on the sample collection (one TRD QA object, one other object, one TPC
QA object) both `Merge` methods return 2. -/
theorem Merge_counts_objects_of_same_class_witness :
    (AliHFEtrdPIDqa.Merge Samples.root Samples.qa (some Samples.collection)).1 = 2 ∧
    (AliHFEtpcPIDqa.Merge Samples.collMerge Samples.tpcQA (some Samples.collection)).map
      Prod.fst = some 2 :=
  ⟨(Merge_counts_objects_of_same_class Samples.root Samples.collMerge Samples.qa
      Samples.tpcQA).2.2.2.2.1 Samples.collection,
   (Merge_counts_objects_of_same_class Samples.root Samples.collMerge Samples.qa
      Samples.tpcQA).2.2.2.2.2.1 Samples.collection (by decide)⟩

namespace AliFemtoDreamv0

/-! ## Daughter assignment -/

/-- The common part of `SetDaughterInfo` only appends to the per-particle vectors of the v0:
daughters, daughter flag, impact parameters, Monte-Carlo flag and global track array stay as
they were. -/
theorem SetDaughterInfo.common_frame (m : TrackMethods) (s s' : AliFemtoDreamv0)
    (h : SetDaughterInfo.common m s = some s') :
    s'.fpDaug = s.fpDaug ∧ s'.fnDaug = s.fnDaug ∧ s'.fHasDaughter = s.fHasDaughter ∧
    s'.fdcaPrimPos = s.fdcaPrimPos ∧ s'.fdcaPrimNeg = s.fdcaPrimNeg ∧ s'.fIsMC = s.fIsMC ∧
    s'.fGTI = s.fGTI ∧ s'.fTrackBufferSize = s.fTrackBufferSize := by
  unfold SetDaughterInfo.common at h
  simp only [bind, Option.bind_eq_some, pure, SetEta, SetTheta, SetPhi, SetIDTracks,
    SetCharge] at h
  obtain ⟨a, -, b, -, c, -, d, -, h⟩ := h
  by_cases hn : m.IsSet s.fnDaug = true
  · cases hphi : at0 (m.GetPhiAtRaidius s.fnDaug) with
    | none => simp [hn, hphi] at h
    | some v =>
      simp [hn, hphi, SetPhiAtRadius] at h
      subst h
      simp
  · simp [hn] at h
    subst h
    simp

end AliFemtoDreamv0

namespace AliFemtoDreamv0

/-- The Monte-Carlo block of `SetDaughterInfo` only appends to the Monte-Carlo vectors of the
v0. -/
theorem SetDaughterInfo.mc_frame (m : TrackMethods) (s s' : AliFemtoDreamv0)
    (h : SetDaughterInfo.mc m s = some s') :
    s'.fpDaug = s.fpDaug ∧ s'.fnDaug = s.fnDaug ∧ s'.fHasDaughter = s.fHasDaughter ∧
    s'.fdcaPrimPos = s.fdcaPrimPos ∧ s'.fdcaPrimNeg = s.fdcaPrimNeg ∧ s'.fIsMC = s.fIsMC ∧
    s'.fGTI = s.fGTI ∧ s'.fTrackBufferSize = s.fTrackBufferSize := by
  unfold SetDaughterInfo.mc at h
  cases hmc : s.fIsMC with
  | false =>
    simp [hmc] at h
    subst h
    simp [hmc]
  | true =>
    cases hn : m.IsSet s.fnDaug <;> cases hp : m.IsSet s.fpDaug <;>
      cases h1 : at0 (m.GetMCTheta s.fnDaug) <;> cases h2 : at0 (m.GetMCPhi s.fnDaug) <;>
      cases h3 : at0 (m.GetMCTheta s.fpDaug) <;> cases h4 : at0 (m.GetMCPhi s.fpDaug) <;>
      simp [hmc, hn, hp, h1, h2, h3, h4, SetMCTheta, SetMCPhi, bind, pure] at h <;>
      subst h <;> simp [hmc]

end AliFemtoDreamv0

namespace AliFemtoDreamv0

/-- A read `.at(0)` of a vector with an entry succeeds. -/
theorem at0_of_ne_nil {α : Type} (v : List α) (h : v ≠ []) : ∃ a, at0 v = some a := by
  cases v with
  | nil => exact absurd rfl h
  | cons a as => exact ⟨a, rfl⟩

/-- The common part of `SetDaughterInfo` returns when all vectors it reads have an entry. -/
theorem SetDaughterInfo.common_returns (m : TrackMethods) (s : AliFemtoDreamv0)
    (hn : Readable m s.fnDaug) (hp : Readable m s.fpDaug) :
    ∃ s', SetDaughterInfo.common m s = some s' := by
  obtain ⟨a, ha⟩ := at0_of_ne_nil _ hn.1
  obtain ⟨b, hb⟩ := at0_of_ne_nil _ hp.1
  obtain ⟨c, hc⟩ := at0_of_ne_nil _ hn.2.1
  obtain ⟨d, hd⟩ := at0_of_ne_nil _ hp.2.1
  obtain ⟨e, he⟩ := at0_of_ne_nil _ hn.2.2.1
  unfold SetDaughterInfo.common
  cases hset : m.IsSet s.fnDaug <;>
    simp [bind, pure, SetEta, SetTheta, SetPhi, SetIDTracks, SetCharge, SetPhiAtRadius,
      ha, hb, hc, hd, he, hset]

/-- The Monte-Carlo block of `SetDaughterInfo` returns when all vectors it reads have an
entry. -/
theorem SetDaughterInfo.mc_returns (m : TrackMethods) (s : AliFemtoDreamv0)
    (hn : Readable m s.fnDaug) (hp : Readable m s.fpDaug) :
    ∃ s', SetDaughterInfo.mc m s = some s' := by
  obtain ⟨a, ha⟩ := at0_of_ne_nil _ hn.2.2.2.1
  obtain ⟨b, hb⟩ := at0_of_ne_nil _ hn.2.2.2.2
  obtain ⟨c, hc⟩ := at0_of_ne_nil _ hp.2.2.2.1
  obtain ⟨d, hd⟩ := at0_of_ne_nil _ hp.2.2.2.2
  unfold SetDaughterInfo.mc
  cases hmc : s.fIsMC <;> cases hsn : m.IsSet s.fnDaug <;> cases hsp : m.IsSet s.fpDaug <;>
    simp [bind, pure, SetMCTheta, SetMCPhi, ha, hb, hc, hd, hmc, hsn, hsp]

/-- Effect of `SetDaughterInfo(AliAODv0*)` on the daughters: `fpDaug` gets the momentum of
prong 0 and `fnDaug` that of prong 1; the daughter flag, the impact parameters and the global
track array stay as they were. -/
theorem SetDaughterInfoAOD_frame (m : TrackMethods) (s s' : AliFemtoDreamv0) (v0 : AliAODv0)
    (h : SetDaughterInfoAOD m s v0 = some s') :
    s'.fpDaug = s.fpDaug.SetMomentum v0.prong0.x v0.prong0.y v0.prong0.z ∧
    s'.fnDaug = s.fnDaug.SetMomentum v0.prong1.x v0.prong1.y v0.prong1.z ∧
    s'.fHasDaughter = s.fHasDaughter ∧ s'.fdcaPrimPos = s.fdcaPrimPos ∧
    s'.fdcaPrimNeg = s.fdcaPrimNeg ∧ s'.fGTI = s.fGTI ∧
    s'.fTrackBufferSize = s.fTrackBufferSize := by
  unfold SetDaughterInfoAOD at h
  simp only [bind, Option.bind_eq_some] at h
  obtain ⟨s1, h1, h2⟩ := h
  obtain ⟨a1, a2, a3, a4, a5, _, a7, a8⟩ := SetDaughterInfo.common_frame m _ s1 h1
  obtain ⟨b1, b2, b3, b4, b5, _, b7, b8⟩ := SetDaughterInfo.mc_frame m s1 s' h2
  exact ⟨b1.trans a1, b2.trans a2, b3.trans a3, b4.trans a4, b5.trans a5, b7.trans a7,
    b8.trans a8⟩

/-- Effect of `SetDaughterInfo(AliESDv0*)` on the daughters: `fnDaug` gets the momentum read
with `GetPPxPyPz` and `fpDaug` the one read with `GetNPxPyPz`; the daughter flag and the
impact parameters stay as they were. -/
theorem SetDaughterInfoESD_frame (m : TrackMethods) (s s' : AliFemtoDreamv0) (v0 : AliESDv0)
    (h : SetDaughterInfoESD m s v0 = some s') :
    s'.fpDaug = s.fpDaug.SetMomentum v0.momNeg.x v0.momNeg.y v0.momNeg.z ∧
    s'.fnDaug = s.fnDaug.SetMomentum v0.momPos.x v0.momPos.y v0.momPos.z ∧
    s'.fHasDaughter = s.fHasDaughter ∧ s'.fdcaPrimPos = s.fdcaPrimPos ∧
    s'.fdcaPrimNeg = s.fdcaPrimNeg := by
  unfold SetDaughterInfoESD at h
  obtain ⟨a1, a2, a3, a4, a5, _, _, _⟩ := SetDaughterInfo.common_frame m _ s' h
  exact ⟨a1, a2, a3, a4, a5⟩

/-- The variant `SetDaughterInfo(AliAODv0*)` returns when every vector it reads from the
daughters has an entry. -/
theorem SetDaughterInfoAOD_returns (m : TrackMethods) (s : AliFemtoDreamv0) (v0 : AliAODv0)
    (hread : ∀ d, Readable m d) : ∃ s', SetDaughterInfoAOD m s v0 = some s' := by
  unfold SetDaughterInfoAOD
  obtain ⟨s1, h1⟩ := SetDaughterInfo.common_returns m
    { s with fnDaug := s.fnDaug.SetMomentum v0.prong1.x v0.prong1.y v0.prong1.z,
             fpDaug := s.fpDaug.SetMomentum v0.prong0.x v0.prong0.y v0.prong0.z }
    (hread _) (hread _)
  obtain ⟨s2, h2⟩ := SetDaughterInfo.mc_returns m s1 (hread _) (hread _)
  exact ⟨s2, by simp only [bind, Option.bind_eq_some]; exact ⟨s1, h1, h2⟩⟩

/-- The variant `SetDaughterInfo(AliESDv0*)` returns when every vector it reads from the
daughters has an entry. -/
theorem SetDaughterInfoESD_returns (m : TrackMethods) (s : AliFemtoDreamv0) (v0 : AliESDv0)
    (hread : ∀ d, Readable m d) : ∃ s', SetDaughterInfoESD m s v0 = some s' := by
  unfold SetDaughterInfoESD
  exact SetDaughterInfo.common_returns m _ (hread _) (hread _)

end AliFemtoDreamv0

namespace AliFemtoDreamv0

/-- C8: after `SetDaughter(AliAODv0*)` has returned, `fHasDaughter` is true if and only if
both daughter IDs are below `fTrackBufferSize`, both global tracks `fGTI[PosID]` and
`fGTI[NegID]` are non-null and their charges have strictly opposite signs; and whenever it is
true, `fpDaug` was set from the track with charge `> 0` and `fnDaug` from the track with
charge `< 0`, whichever of `PosID`/`NegID` it came from. The call returns whenever that
condition fails, and also whenever every vector `SetDaughterInfo` reads with `.at(0)` has an
entry. -/
theorem SetDaughterAOD_opposite_charges (m : TrackMethods) (self : AliFemtoDreamv0)
    (v0 : AliAODv0) :
    (∀ s', SetDaughterAOD m self v0 = some s' →
      (s'.fHasDaughter = true ↔
        v0.PosID < self.fTrackBufferSize ∧ v0.NegID < self.fTrackBufferSize ∧
        ∃ pos neg, self.fGTI v0.PosID = some pos ∧ self.fGTI v0.NegID = some neg ∧
          ((pos.charge > 0 ∧ neg.charge < 0) ∨ (pos.charge < 0 ∧ neg.charge > 0))) ∧
      (s'.fHasDaughter = true →
        ∃ tp tn, s'.fpDaug.setFromAOD = some tp ∧ s'.fnDaug.setFromAOD = some tn ∧
          tp.charge > 0 ∧ tn.charge < 0 ∧
          ((self.fGTI v0.PosID = some tp ∧ self.fGTI v0.NegID = some tn) ∨
           (self.fGTI v0.PosID = some tn ∧ self.fGTI v0.NegID = some tp)))) ∧
    (¬ (v0.PosID < self.fTrackBufferSize ∧ v0.NegID < self.fTrackBufferSize ∧
        ∃ pos neg, self.fGTI v0.PosID = some pos ∧ self.fGTI v0.NegID = some neg ∧
          ((pos.charge > 0 ∧ neg.charge < 0) ∨ (pos.charge < 0 ∧ neg.charge > 0))) →
      ∃ s', SetDaughterAOD m self v0 = some s') ∧
    ((∀ d, Readable m d) → ∃ s', SetDaughterAOD m self v0 = some s') := by
  unfold SetDaughterAOD
  by_cases hsize : v0.PosID ≥ self.fTrackBufferSize ∨ v0.NegID ≥ self.fTrackBufferSize
  · -- fGTI too small
    simp only [if_pos hsize]
    refine ⟨?_, fun _ => ⟨_, rfl⟩, fun _ => ⟨_, rfl⟩⟩
    intro s' h
    simp only [Option.some.injEq] at h
    subst h
    refine ⟨⟨fun hf => by simp at hf, fun hc => ?_⟩, fun hf => by simp at hf⟩
    obtain ⟨h1, h2, _⟩ := hc
    omega
  · simp only [if_neg hsize]
    have hlt : v0.PosID < self.fTrackBufferSize ∧ v0.NegID < self.fTrackBufferSize := by
      omega
    cases hpos : self.fGTI v0.PosID with
    | none =>
      simp only
      refine ⟨?_, fun _ => ⟨_, rfl⟩, fun _ => ⟨_, rfl⟩⟩
      intro s' h
      simp only [Option.some.injEq] at h
      subst h
      refine ⟨⟨fun hf => by simp at hf, fun hc => ?_⟩, fun hf => by simp at hf⟩
      obtain ⟨_, _, p, n, hp, _⟩ := hc
      simp at hp
    | some pos =>
      cases hneg : self.fGTI v0.NegID with
      | none =>
        simp only
        refine ⟨?_, fun _ => ⟨_, rfl⟩, fun _ => ⟨_, rfl⟩⟩
        intro s' h
        simp only [Option.some.injEq] at h
        subst h
        refine ⟨⟨fun hf => by simp at hf, fun hc => ?_⟩, fun hf => by simp at hf⟩
        obtain ⟨_, _, p, n, _, hn, _⟩ := hc
        simp at hn
      | some neg =>
        simp only
        by_cases hc1 : pos.charge > 0 ∧ neg.charge < 0
        · -- positive track at PosID, negative track at NegID
          simp only [if_pos hc1]
          refine ⟨?_, fun hnot => absurd ⟨hlt.1, hlt.2, pos, neg, rfl, rfl, Or.inl hc1⟩ hnot,
            fun hread => ?_⟩
          · intro s' h
            simp only [Option.map_eq_some'] at h
            obtain ⟨s1, hinfo, hs'⟩ := h
            subst hs'
            obtain ⟨f1, f2, _⟩ := SetDaughterInfoAOD_frame m _ s1 v0 hinfo
            refine ⟨⟨fun _ => ⟨hlt.1, hlt.2, pos, neg, rfl, rfl, Or.inl hc1⟩, fun _ => rfl⟩,
              fun _ => ⟨pos, neg, ?_, ?_, hc1.1, hc1.2, Or.inl ⟨rfl, rfl⟩⟩⟩
            · simp only [f1]; rfl
            · simp only [f2]; rfl
          · obtain ⟨s1, hs1⟩ := SetDaughterInfoAOD_returns m
              { self with
                fpDaug := (self.fpDaug.SetGlobalTrackInfo self.fTrackBufferSize).SetTrackAOD pos,
                fnDaug := (self.fnDaug.SetGlobalTrackInfo self.fTrackBufferSize).SetTrackAOD neg }
              v0 hread
            exact ⟨_, by simp only [hs1]; rfl⟩
        · simp only [if_neg hc1]
          by_cases hc2 : pos.charge < 0 ∧ neg.charge > 0
          · -- negative track at PosID, positive track at NegID
            simp only [if_pos hc2]
            refine ⟨?_, fun hnot => absurd ⟨hlt.1, hlt.2, pos, neg, rfl, rfl, Or.inr hc2⟩ hnot,
              fun hread => ?_⟩
            · intro s' h
              simp only [Option.map_eq_some'] at h
              obtain ⟨s1, hinfo, hs'⟩ := h
              subst hs'
              obtain ⟨f1, f2, _⟩ := SetDaughterInfoAOD_frame m _ s1 v0 hinfo
              refine ⟨⟨fun _ => ⟨hlt.1, hlt.2, pos, neg, rfl, rfl, Or.inr hc2⟩, fun _ => rfl⟩,
                fun _ => ⟨neg, pos, ?_, ?_, hc2.2, hc2.1, Or.inr ⟨rfl, rfl⟩⟩⟩
              · simp only [f1]; rfl
              · simp only [f2]; rfl
            · obtain ⟨s1, hs1⟩ := SetDaughterInfoAOD_returns m
                { self with
                  fpDaug :=
                    (self.fpDaug.SetGlobalTrackInfo self.fTrackBufferSize).SetTrackAOD neg,
                  fnDaug :=
                    (self.fnDaug.SetGlobalTrackInfo self.fTrackBufferSize).SetTrackAOD pos }
                v0 hread
              exact ⟨_, by simp only [hs1]; rfl⟩
          · simp only [if_neg hc2]
            refine ⟨?_, fun _ => ⟨_, rfl⟩, fun _ => ⟨_, rfl⟩⟩
            intro s' h
            simp only [Option.some.injEq] at h
            subst h
            refine ⟨⟨fun hf => by simp at hf, fun hc => ?_⟩, fun hf => by simp at hf⟩
            obtain ⟨_, _, p, n, hp, hn, hch⟩ := hc
            simp only [Option.some.injEq] at hp hn
            subst hp
            subst hn
            rcases hch with h | h
            · exact absurd h hc1
            · exact absurd h hc2

end AliFemtoDreamv0

namespace AliFemtoDreamv0

/-- Witness for C8: on the sample v0 (positive track at index 0, negative track at index 1)
the call returns with `fHasDaughter` true, `fpDaug` set from the positive and `fnDaug` from
the negative track. -/
theorem SetDaughterAOD_opposite_charges_witness :
    ∃ s', SetDaughterAOD Samples.methods Samples.v0 Samples.aodV0 = some s' ∧
      s'.fHasDaughter = true ∧
      ∃ tp tn, s'.fpDaug.setFromAOD = some tp ∧ s'.fnDaug.setFromAOD = some tn ∧
        tp.charge > 0 ∧ tn.charge < 0 ∧
        ((Samples.v0.fGTI Samples.aodV0.PosID = some tp ∧
            Samples.v0.fGTI Samples.aodV0.NegID = some tn) ∨
         (Samples.v0.fGTI Samples.aodV0.PosID = some tn ∧
            Samples.v0.fGTI Samples.aodV0.NegID = some tp)) := by
  obtain ⟨s', hs'⟩ := Option.isSome_iff_exists.mp
    (show (SetDaughterAOD Samples.methods Samples.v0 Samples.aodV0).isSome = true by decide)
  have key := (SetDaughterAOD_opposite_charges Samples.methods Samples.v0 Samples.aodV0).1 s' hs'
  have hset : s'.fHasDaughter = true :=
    key.1.mpr ⟨by decide, by decide, ⟨0, 1⟩, ⟨1, -1⟩, rfl, rfl, Or.inl ⟨by decide, by decide⟩⟩
  exact ⟨s', hs', hset, key.2 hset⟩

end AliFemtoDreamv0

namespace AliFemtoDreamv0

/-- C9: after `SetDaughter(AliESDEvent*, AliESDv0*)` has returned, `fHasDaughter` is true if
and only if both daughter tracks exist in the event, their charges have strictly opposite
signs, and both daughter objects report `IsSet` after `SetTrack`; and whenever it is true,
`fpDaug` was set from the track with charge `> 0`, `fnDaug` from the track with charge `< 0`,
and `fdcaPrimPos` / `fdcaPrimNeg` are the absolute transverse impact parameters of the
positively / negatively charged track. The call returns whenever that condition fails, and
also whenever every vector `SetDaughterInfo` reads with `.at(0)` has an entry. -/
theorem SetDaughterESD_opposite_charges (m : TrackMethods) (self : AliFemtoDreamv0)
    (evt : AliESDEvent) (v0 : AliESDv0) :
    (∀ s', SetDaughterESD m self evt v0 = some s' →
      (s'.fHasDaughter = true ↔
        ∃ tp tn, tp.charge > 0 ∧ tn.charge < 0 ∧
          ((evt.GetTrack v0.Pindex = some tp ∧ evt.GetTrack v0.Nindex = some tn) ∨
           (evt.GetTrack v0.Pindex = some tn ∧ evt.GetTrack v0.Nindex = some tp)) ∧
          m.IsSet (self.fnDaug.SetTrackESD tn) = true ∧
          m.IsSet (self.fpDaug.SetTrackESD tp) = true) ∧
      (s'.fHasDaughter = true →
        ∃ tp tn, s'.fpDaug.setFromESD = some tp ∧ s'.fnDaug.setFromESD = some tn ∧
          tp.charge > 0 ∧ tn.charge < 0 ∧
          ((evt.GetTrack v0.Pindex = some tp ∧ evt.GetTrack v0.Nindex = some tn) ∨
           (evt.GetTrack v0.Pindex = some tn ∧ evt.GetTrack v0.Nindex = some tp)) ∧
          s'.fdcaPrimPos = absD m evt tp ∧ s'.fdcaPrimNeg = absD m evt tn)) ∧
    (¬ (∃ tp tn, tp.charge > 0 ∧ tn.charge < 0 ∧
          ((evt.GetTrack v0.Pindex = some tp ∧ evt.GetTrack v0.Nindex = some tn) ∨
           (evt.GetTrack v0.Pindex = some tn ∧ evt.GetTrack v0.Nindex = some tp)) ∧
          m.IsSet (self.fnDaug.SetTrackESD tn) = true ∧
          m.IsSet (self.fpDaug.SetTrackESD tp) = true) →
      ∃ s', SetDaughterESD m self evt v0 = some s') ∧
    ((∀ d, Readable m d) → ∃ s', SetDaughterESD m self evt v0 = some s') := by
  unfold SetDaughterESD
  simp only
  cases hpos : evt.GetTrack v0.Pindex with
  | none =>
    simp only
    refine ⟨?_, fun _ => ⟨_, rfl⟩, fun _ => ⟨_, rfl⟩⟩
    intro s' h
    simp only [Option.some.injEq] at h
    subst h
    refine ⟨⟨fun hf => by simp at hf, fun hc => ?_⟩, fun hf => by simp at hf⟩
    obtain ⟨tp, tn, _, _, hor, _⟩ := hc
    rcases hor with ⟨h1, _⟩ | ⟨h1, _⟩ <;> simp at h1
  | some pos =>
    cases hneg : evt.GetTrack v0.Nindex with
    | none =>
      simp only
      refine ⟨?_, fun _ => ⟨_, rfl⟩, fun _ => ⟨_, rfl⟩⟩
      intro s' h
      simp only [Option.some.injEq] at h
      subst h
      refine ⟨⟨fun hf => by simp at hf, fun hc => ?_⟩, fun hf => by simp at hf⟩
      obtain ⟨tp, tn, _, _, hor, _⟩ := hc
      rcases hor with ⟨_, h2⟩ | ⟨_, h2⟩ <;> simp at h2
    | some neg =>
      simp only
      by_cases hc1 : pos.charge > 0 ∧ neg.charge < 0
      · -- positive track at Pindex, negative track at Nindex
        simp only [if_pos hc1]
        by_cases hset : m.IsSet (self.fnDaug.SetTrackESD neg) = true ∧
            m.IsSet (self.fpDaug.SetTrackESD pos) = true
        · simp only [if_pos hset]
          have hcond : ∃ tp tn : AliESDtrack, tp.charge > 0 ∧ tn.charge < 0 ∧
              ((some pos = some tp ∧ some neg = some tn) ∨
               (some pos = some tn ∧ some neg = some tp)) ∧
              m.IsSet (self.fnDaug.SetTrackESD tn) = true ∧
              m.IsSet (self.fpDaug.SetTrackESD tp) = true :=
            ⟨pos, neg, hc1.1, hc1.2, Or.inl ⟨rfl, rfl⟩, hset.1, hset.2⟩
          refine ⟨?_, fun hnot => absurd hcond hnot, fun hread => ?_⟩
          · intro s' h
            simp only [Option.map_eq_some'] at h
            obtain ⟨s1, hinfo, hs'⟩ := h
            subst hs'
            obtain ⟨f1, f2, _⟩ := SetDaughterInfoESD_frame m _ s1 v0 hinfo
            refine ⟨⟨fun _ => hcond, fun _ => rfl⟩,
              fun _ => ⟨pos, neg, ?_, ?_, hc1.1, hc1.2, Or.inl ⟨rfl, rfl⟩, rfl, rfl⟩⟩
            · simp only [f1]; rfl
            · simp only [f2]; rfl
          · obtain ⟨s1, hs1⟩ := SetDaughterInfoESD_returns m
              { self with fHasDaughter := false,
                          fnDaug := self.fnDaug.SetTrackESD neg,
                          fpDaug := self.fpDaug.SetTrackESD pos } v0 hread
            exact ⟨_, by simp only [hs1]; rfl⟩
        · simp only [if_neg hset]
          refine ⟨?_, fun _ => ⟨_, rfl⟩, fun _ => ⟨_, rfl⟩⟩
          intro s' h
          simp only [Option.some.injEq] at h
          subst h
          refine ⟨⟨fun hf => by simp at hf, fun hc => ?_⟩, fun hf => by simp at hf⟩
          obtain ⟨tp, tn, hp, hn, hor, hs1, hs2⟩ := hc
          rcases hor with ⟨h1, h2⟩ | ⟨h1, h2⟩
          · simp only [Option.some.injEq] at h1 h2
            subst h1
            subst h2
            exact absurd ⟨hs1, hs2⟩ hset
          · simp only [Option.some.injEq] at h1 h2
            subst h1
            subst h2
            omega
      · simp only [if_neg hc1]
        by_cases hc2 : pos.charge < 0 ∧ neg.charge > 0
        · -- negative track at Pindex, positive track at Nindex
          simp only [if_pos hc2]
          by_cases hset : m.IsSet (self.fnDaug.SetTrackESD pos) = true ∧
              m.IsSet (self.fpDaug.SetTrackESD neg) = true
          · simp only [if_pos hset]
            have hcond : ∃ tp tn : AliESDtrack, tp.charge > 0 ∧ tn.charge < 0 ∧
                ((some pos = some tp ∧ some neg = some tn) ∨
                 (some pos = some tn ∧ some neg = some tp)) ∧
                m.IsSet (self.fnDaug.SetTrackESD tn) = true ∧
                m.IsSet (self.fpDaug.SetTrackESD tp) = true :=
              ⟨neg, pos, hc2.2, hc2.1, Or.inr ⟨rfl, rfl⟩, hset.1, hset.2⟩
            refine ⟨?_, fun hnot => absurd hcond hnot, fun hread => ?_⟩
            · intro s' h
              simp only [Option.map_eq_some'] at h
              obtain ⟨s1, hinfo, hs'⟩ := h
              subst hs'
              obtain ⟨f1, f2, _⟩ := SetDaughterInfoESD_frame m _ s1 v0 hinfo
              refine ⟨⟨fun _ => hcond, fun _ => rfl⟩,
                fun _ => ⟨neg, pos, ?_, ?_, hc2.2, hc2.1, Or.inr ⟨rfl, rfl⟩, rfl, rfl⟩⟩
              · simp only [f1]; rfl
              · simp only [f2]; rfl
            · obtain ⟨s1, hs1⟩ := SetDaughterInfoESD_returns m
                { self with fHasDaughter := false,
                            fnDaug := self.fnDaug.SetTrackESD pos,
                            fpDaug := self.fpDaug.SetTrackESD neg } v0 hread
              exact ⟨_, by simp only [hs1]; rfl⟩
          · simp only [if_neg hset]
            refine ⟨?_, fun _ => ⟨_, rfl⟩, fun _ => ⟨_, rfl⟩⟩
            intro s' h
            simp only [Option.some.injEq] at h
            subst h
            refine ⟨⟨fun hf => by simp at hf, fun hc => ?_⟩, fun hf => by simp at hf⟩
            obtain ⟨tp, tn, hp, hn, hor, hs1, hs2⟩ := hc
            rcases hor with ⟨h1, h2⟩ | ⟨h1, h2⟩
            · simp only [Option.some.injEq] at h1 h2
              subst h1
              subst h2
              omega
            · simp only [Option.some.injEq] at h1 h2
              subst h1
              subst h2
              exact absurd ⟨hs1, hs2⟩ hset
        · simp only [if_neg hc2]
          refine ⟨?_, fun _ => ⟨_, rfl⟩, fun _ => ⟨_, rfl⟩⟩
          intro s' h
          simp only [Option.some.injEq] at h
          subst h
          refine ⟨⟨fun hf => by simp at hf, fun hc => ?_⟩, fun hf => by simp at hf⟩
          obtain ⟨tp, tn, hp, hn, hor, _⟩ := hc
          rcases hor with ⟨h1, h2⟩ | ⟨h1, h2⟩
          · simp only [Option.some.injEq] at h1 h2
            subst h1
            subst h2
            exact absurd ⟨hp, hn⟩ hc1
          · simp only [Option.some.injEq] at h1 h2
            subst h1
            subst h2
            exact absurd ⟨hn, hp⟩ hc2

end AliFemtoDreamv0

namespace AliFemtoDreamv0

/-- Witness for C9: in the sample event the v0 reports the negative track as its positive
daughter and the positive track as its negative daughter; the call returns with
`fHasDaughter` true, `fpDaug` set from the positive and `fnDaug` from the negative track. -/
theorem SetDaughterESD_opposite_charges_witness :
    ∃ s', SetDaughterESD Samples.methods Samples.v0 Samples.esdEvent Samples.esdV0 = some s' ∧
      s'.fHasDaughter = true ∧
      ∃ tp tn, s'.fpDaug.setFromESD = some tp ∧ s'.fnDaug.setFromESD = some tn ∧
        tp.charge > 0 ∧ tn.charge < 0 ∧
        ((Samples.esdEvent.GetTrack Samples.esdV0.Pindex = some tp ∧
            Samples.esdEvent.GetTrack Samples.esdV0.Nindex = some tn) ∨
         (Samples.esdEvent.GetTrack Samples.esdV0.Pindex = some tn ∧
            Samples.esdEvent.GetTrack Samples.esdV0.Nindex = some tp)) ∧
        s'.fdcaPrimPos = absD Samples.methods Samples.esdEvent tp ∧
        s'.fdcaPrimNeg = absD Samples.methods Samples.esdEvent tn := by
  obtain ⟨s', hs'⟩ := Option.isSome_iff_exists.mp
    (show (SetDaughterESD Samples.methods Samples.v0 Samples.esdEvent Samples.esdV0).isSome
      = true by decide)
  have key := (SetDaughterESD_opposite_charges Samples.methods Samples.v0 Samples.esdEvent
    Samples.esdV0).1 s' hs'
  have hset : s'.fHasDaughter = true :=
    key.1.mpr ⟨⟨1, 1⟩, ⟨0, -1⟩, by decide, by decide, Or.inr ⟨rfl, rfl⟩, by decide, by decide⟩
  exact ⟨s', hs', hset, key.2 hset⟩

/-! ## Pointing angle -/

/-- C10 (the code at the failing input): with both daughter momenta `(0, 0, 1)`, the decay
vertex at `(0, 0, 5)` and the point at the origin, the momentum points exactly along the
line from the point to the decay vertex, so the cosine of the pointing angle in space is 1;
`CosPointingAngle` returns 0, because the third component of its line vector is
`DecayVtx[0] - point[2] = 0` instead of `DecayVtx[2] - point[2] = 5`. -/
theorem CosPointingAngle_ignores_decay_z :
    CosPointingAngle Samples.methods Samples.v0WithDaughters Samples.decayVtx Samples.origin
      = 0 ∧
    CosPointingAngleInSpace Samples.methods Samples.v0WithDaughters Samples.decayVtx
      Samples.origin = 1 := by
  have h100 : (Int.toNat 100).sqrt = 10 := Nat.sqrt_eq 10
  have h1 : Nat.sqrt 1 = 1 := Nat.sqrt_eq 1
  constructor
  · norm_num [CosPointingAngle, Samples.methods, Samples.v0WithDaughters, Samples.decayVtx,
      Samples.origin, TVector3.add, TVector3.Mag2, TVector3.Dot, Samples.lastMomentum]
  · norm_num [CosPointingAngleInSpace, Samples.methods, Samples.v0WithDaughters,
      Samples.decayVtx, Samples.origin, TVector3.add, TVector3.Mag2, TVector3.Dot,
      Samples.lastMomentum, h100, h1]

end AliFemtoDreamv0

/-! ## Decay length in the transverse plane -/

namespace AliFemtoDreamv0

end AliFemtoDreamv0

namespace AliFemtoDreamv0

/-! ## Daughter information -/

/-- C12 (the code at the failing input): for an ESD v0 with positive-daughter momentum
`(1, 0, 0)` (`GetPPxPyPz`) and negative-daughter momentum `(0, 1, 0)` (`GetNPxPyPz`),
`SetDaughterInfo(AliESDv0*)` gives `fpDaug` the negative-daughter momentum and `fnDaug` the
positive-daughter momentum; the AOD variant on prongs `(1, 0, 0)` and `(0, 1, 0)` gives
`fpDaug` prong 0 and `fnDaug` prong 1. The two variants disagree. -/
theorem SetDaughterInfoESD_swaps_momenta :
    (SetDaughterInfoESD Samples.methods Samples.v0WithDaughters Samples.esdV0Skew).map
        (fun s => (s.fpDaug.calls.head?, s.fnDaug.calls.head?))
      = some (some (TrackCall.SetMomentum 0 1 0), some (TrackCall.SetMomentum 1 0 0)) ∧
    (SetDaughterInfoESD Samples.methods Samples.v0WithDaughters Samples.esdV0Skew).map
        (fun s => (Samples.methods.GetMomentum s.fpDaug, Samples.methods.GetMomentum s.fnDaug))
      = some (Samples.esdV0Skew.momNeg, Samples.esdV0Skew.momPos) ∧
    (SetDaughterInfoAOD Samples.methods Samples.v0WithDaughters Samples.aodV0Skew).map
        (fun s => (Samples.methods.GetMomentum s.fpDaug, Samples.methods.GetMomentum s.fnDaug))
      = some (Samples.aodV0Skew.prong0, Samples.aodV0Skew.prong1) ∧
    Samples.esdV0Skew.momPos ≠ Samples.esdV0Skew.momNeg := by
  refine ⟨by decide, by decide, by decide, by decide⟩

/-- C18 (the code at the failing input): with a negative daughter whose phi-at-radius entry
is `[-1]` and a positive daughter whose entry is `[1]`, both `SetDaughterInfo` variants
append `[-1]` twice to the phi-at-radius entries of the v0: the second block tests and reads
`fnDaug` again, so the entry of the positive daughter is never stored. The charge entries
appended by the same calls are `-1, 1`, negative then positive. -/
theorem SetDaughterInfo_stores_negative_phi_twice :
    (SetDaughterInfoAOD Samples.methodsPhi Samples.v0WithDaughters Samples.aodV0).map
        (fun s => s.fPhiAtRadius) = some [[-1], [-1]] ∧
    (SetDaughterInfoESD Samples.methodsPhi Samples.v0WithDaughters Samples.esdV0).map
        (fun s => s.fPhiAtRadius) = some [[-1], [-1]] ∧
    (SetDaughterInfoAOD Samples.methodsPhi Samples.v0WithDaughters Samples.aodV0).map
        (fun s => (at0 (Samples.methodsPhi.GetPhiAtRaidius s.fnDaug),
                   at0 (Samples.methodsPhi.GetPhiAtRaidius s.fpDaug)))
      = some (some [-1], some [1]) ∧
    (SetDaughterInfoAOD Samples.methodsPhi Samples.v0WithDaughters Samples.aodV0).map
        (fun s => s.fCharge) = some [-1, 1] ∧
    Samples.v0WithDaughters.fPhiAtRadius = [] ∧ Samples.v0WithDaughters.fCharge = [] := by
  refine ⟨by decide, by decide, by decide, by decide, rfl, rfl⟩

end AliFemtoDreamv0

/-! ## The OADB switches of the EMCAL clusterization task -/

namespace AliAnalysisTaskEMCALClusterize

/-- C14 (the code at the failing input): on a task with both flags off, `SwitchOnEMCALOADB`
leaves the OADB flag `fAccessOADB` off and turns the OCDB flag `fAccessOCDB` on; on a task
with both flags on, `SwitchOffEMCALOADB` leaves `fAccessOADB` on and turns `fAccessOCDB` off.
Both do exactly what `SwitchOnAccessOCDB` and `SwitchOffAccessOCDB` do. -/
theorem SwitchEMCALOADB_sets_OCDB_flag :
    (SwitchOnEMCALOADB Samples.taskOff).fAccessOADB = false ∧
    (SwitchOnEMCALOADB Samples.taskOff).fAccessOCDB = true ∧
    (SwitchOffEMCALOADB Samples.taskOn).fAccessOADB = true ∧
    (SwitchOffEMCALOADB Samples.taskOn).fAccessOCDB = false ∧
    (∀ t, SwitchOnEMCALOADB t = SwitchOnAccessOCDB t) ∧
    (∀ t, SwitchOffEMCALOADB t = SwitchOffAccessOCDB t) := by
  refine ⟨rfl, rfl, rfl, rfl, fun _ => rfl, fun _ => rfl⟩

end AliAnalysisTaskEMCALClusterize

namespace AliHFEtrdPIDqa

/-- C17: when `fThresholds` is null, `SaveThresholdParameters` returns after reporting the
error `Threshold histograms have to be created first`: it fits nothing, builds no output
list, creates and writes no file, and leaves the object as it was. -/
theorem SaveThresholdParameters_requires_thresholds (root : ROOT) (self : AliHFEtrdPIDqa)
    (name : String) (hnull : self.fThresholds = none) :
    ∃ r, SaveThresholdParameters root self name = some r ∧
      r.errors = ["Threshold histograms have to be created first"] ∧
      r.fitted = [] ∧ r.outlist = none ∧ r.outfile = none ∧ r.self = self := by
  unfold SaveThresholdParameters
  simp only [hnull]
  exact ⟨_, rfl, rfl, rfl, rfl, rfl, rfl⟩

/-- Witness for C17 on the sample QA object after `Init`, whose threshold list is null. -/
theorem SaveThresholdParameters_requires_thresholds_witness :
    ∃ r, SaveThresholdParameters Samples.root Samples.qa "thresholds.root" = some r ∧
      r.errors = ["Threshold histograms have to be created first"] ∧
      r.fitted = [] ∧ r.outlist = none ∧ r.outfile = none ∧ r.self = Samples.qa :=
  SaveThresholdParameters_requires_thresholds Samples.root Samples.qa "thresholds.root" rfl

end AliHFEtrdPIDqa

namespace AliFemtoDreamv0

/-! ## Reset -/

/-- C13: for every object state `Reset` leaves the PDG code `fPDGCode` and the Monte-Carlo
flag `fIsMC` unchanged; when the object is not already reset it clears the kinematic vectors
and momenta, sets `fUse` to false, `fIsSet` to true and `fIsReset` to true; when it is
already reset nothing changes; and a second `Reset` directly after a `Reset` changes
nothing. -/
theorem Reset_keeps_pdg_and_mc_flag (self : AliFemtoDreamv0) :
    (Reset self).fPDGCode = self.fPDGCode ∧ (Reset self).fIsMC = self.fIsMC ∧
    (self.fIsReset = false →
      (Reset self).fP = ⟨0, 0, 0⟩ ∧ (Reset self).fMCP = ⟨0, 0, 0⟩ ∧
      (Reset self).fPt = 0 ∧ (Reset self).fMCPt = 0 ∧ (Reset self).fP_TPC = 0 ∧
      (Reset self).fEta = [] ∧ (Reset self).fTheta = [] ∧ (Reset self).fMCTheta = [] ∧
      (Reset self).fPhi = [] ∧ (Reset self).fPhiAtRadius = [] ∧ (Reset self).fMCPhi = [] ∧
      (Reset self).fIDTracks = [] ∧ (Reset self).fCharge = [] ∧
      (Reset self).fUse = false ∧ (Reset self).fIsSet = true ∧
      (Reset self).fIsReset = true) ∧
    (self.fIsReset = true → Reset self = self) ∧
    Reset (Reset self) = Reset self := by
  cases h : self.fIsReset with
  | false =>
    refine ⟨?_, ?_, ?_, ?_, ?_⟩
    · simp [Reset, h]
    · simp [Reset, h]
    · intro _
      simp [Reset, h]
    · intro hc
      simp at hc
    · simp [Reset, h]
  | true =>
    have hid : Reset self = self := by simp [Reset, h]
    refine ⟨by rw [hid], by rw [hid], ?_, fun _ => hid, by rw [hid, hid]⟩
    intro hc
    simp at hc

/-- Witness for C13 on the sample v0 with daughters, which is not reset. -/
theorem Reset_keeps_pdg_and_mc_flag_witness :
    (Reset Samples.v0WithDaughters).fPDGCode = 3122 ∧
    (Reset Samples.v0WithDaughters).fIsMC = false ∧
    (Reset Samples.v0WithDaughters).fUse = false ∧
    (Reset Samples.v0WithDaughters).fIsSet = true ∧
    (Reset Samples.v0WithDaughters).fIsReset = true ∧
    Reset (Reset Samples.v0WithDaughters) = Reset Samples.v0WithDaughters :=
  ⟨(Reset_keeps_pdg_and_mc_flag Samples.v0WithDaughters).1,
   (Reset_keeps_pdg_and_mc_flag Samples.v0WithDaughters).2.1,
   ((Reset_keeps_pdg_and_mc_flag Samples.v0WithDaughters).2.2.1 rfl).2.2.2.2.2.2.2.2.2.2.2.2.2.1,
   ((Reset_keeps_pdg_and_mc_flag Samples.v0WithDaughters).2.2.1 rfl).2.2.2.2.2.2.2.2.2.2.2.2.2.2.1,
   ((Reset_keeps_pdg_and_mc_flag Samples.v0WithDaughters).2.2.1 rfl).2.2.2.2.2.2.2.2.2.2.2.2.2.2.2,
   (Reset_keeps_pdg_and_mc_flag Samples.v0WithDaughters).2.2.2.2⟩

end AliFemtoDreamv0

namespace AliFemtoDreamv0

/-! ## Particle origin from the Monte-Carlo match -/

/-- The mother loop does not depend on the number of passes it is allowed: once it has
returned a value, every larger allowance gives the same value. -/
theorem SetMCMotherInfo.motherLoop_mono (mcarray : List AliAODMCParticle) :
    ∀ (fuel : Nat) (motherID lastMother r : Int),
      SetMCMotherInfo.motherLoop mcarray fuel motherID lastMother = some r →
      ∀ k, SetMCMotherInfo.motherLoop mcarray (fuel + k) motherID lastMother = some r := by
  intro fuel
  induction fuel with
  | zero =>
    intro motherID lastMother r h k
    unfold SetMCMotherInfo.motherLoop at h
    by_cases hm : motherID ≠ -1
    · rw [if_pos hm] at h
      simp at h
    · rw [if_neg hm] at h
      cases k with
      | zero =>
        unfold SetMCMotherInfo.motherLoop
        rw [if_neg hm]
        exact h
      | succ k =>
        have hk : 0 + (k + 1) = k + 1 := by omega
        rw [hk]
        unfold SetMCMotherInfo.motherLoop
        rw [if_neg hm]
        exact h
  | succ n ih =>
    intro motherID lastMother r h k
    have hk : n + 1 + k = (n + k) + 1 := by omega
    rw [hk]
    unfold SetMCMotherInfo.motherLoop at h ⊢
    by_cases hm : motherID ≠ -1
    · rw [if_pos hm] at h ⊢
      cases hat : TClonesArray.At mcarray motherID with
      | none => simp [hat] at h
      | some mcMother =>
        simp only [hat] at h ⊢
        exact ih _ _ _ h k
    · rw [if_neg hm] at h ⊢
      exact h

end AliFemtoDreamv0

namespace AliFemtoDreamv0

end AliFemtoDreamv0

/-! ## Filling the TPC histograms -/

namespace AliHFEcollection

/-- Filling the first histogram of a name in a list: when there is one, the fill succeeds,
that histogram gets the tuple appended, and the lookup of every other name is as before. -/
theorem fillFirst_spec (name : String) (x : List ℚ) :
    ∀ (l : List (String × THnSparseF)) (d : THnSparseF),
      (l.find? (fun e => e.1 == name)).map Prod.snd = some d →
      ∃ l', fillFirst l name x = some l' ∧
        (l'.find? (fun e => e.1 == name)).map Prod.snd = some (d.Fill x) ∧
        ∀ other, other ≠ name →
          (l'.find? (fun e => e.1 == other)).map Prod.snd
            = (l.find? (fun e => e.1 == other)).map Prod.snd := by
  intro l
  induction l with
  | nil => intro d h; simp at h
  | cons e rest ih =>
    intro d h
    by_cases he : e.1 = name
    · have hb : (e.1 == name) = true := by simp [he]
      simp only [List.find?_cons, hb, Option.map_some', Option.some.injEq] at h
      subst h
      refine ⟨(e.1, e.2.Fill x) :: rest, by simp [fillFirst, hb], by simp [List.find?_cons, hb],
        ?_⟩
      intro other hne
      have hb' : (e.1 == other) = false := by
        simp only [beq_eq_false_iff_ne, ne_eq]
        rw [he]
        exact fun hc => hne hc.symm
      simp [List.find?_cons, hb']
    · have hb : (e.1 == name) = false := by simp [he]
      simp only [List.find?_cons, hb] at h
      obtain ⟨l', h1, h2, h3⟩ := ih d h
      refine ⟨e :: l', by simp [fillFirst, hb, h1], by simp [List.find?_cons, hb, h2], ?_⟩
      intro other hne
      by_cases ho : (e.1 == other) = true
      · simp [List.find?_cons, ho]
      · have ho' : (e.1 == other) = false := by simpa using ho
        simp only [List.find?_cons, ho']
        exact h3 other hne

/-- Filling a histogram of a collection that `Get` finds: the fill succeeds, `Get` then finds
the histogram with the tuple appended, and every other name is found as before. -/
theorem Fill_spec (c : AliHFEcollection) (name : String) (x : List ℚ) (d : THnSparseF)
    (h : c.Get name = some d) :
    ∃ c', c.Fill name x = some c' ∧ c'.Get name = some (d.Fill x) ∧
      ∀ other, other ≠ name → c'.Get other = c.Get other := by
  obtain ⟨l', h1, h2, h3⟩ := fillFirst_spec name x c.histos d h
  exact ⟨{ histos := l' }, by simp [Fill, h1], h2, h3⟩

end AliHFEcollection

namespace AliHFEtpcPIDqa

/-- A histogram and the same histogram with one more tuple are different. -/
theorem Fill_ne (d : THnSparseF) (x : List ℚ) : d.Fill x ≠ d := by
  intro h
  have hlen : (d.Fill x).fills.length = d.fills.length := by rw [h]
  simp [THnSparseF.Fill] at hlen

/-- C16: `ProcessESDtrack` is guarded by the ESD PID object. Without `fESDpid` it reports the
error `No ESD PID object available` and leaves the object, and with it every histogram, as
it was. With `fESDpid`, on an object that holds the histograms `tpcDedx` and `tpcnSigma`, it
reports nothing and changes the histogram collection: `tpcDedx` and `tpcnSigma` each get
exactly one tuple appended, the two tuples agree in species, momentum (inner-parameter
momentum when available, else track momentum), step and centrality and differ only in the
signal coordinate (TPC signal against number of sigmas), and every other histogram is as
before. -/
theorem ProcessESDtrack_guarded_by_ESDpid (e : ESDMethods) (self : AliHFEtpcPIDqa)
    (track : AliESDtrack) (step : EStep_t) (species : Int) (centrality : ℚ) :
    (self.fESDpid = none →
      ProcessESDtrack e self track step species centrality
        = some (["No ESD PID object available"], self)) ∧
    (∀ (pid : AliESDpid) (c : AliHFEcollection) (d n : THnSparseF),
      self.fESDpid = some pid → self.fHistos = some c →
      c.Get "tpcDedx" = some d → c.Get "tpcnSigma" = some n →
      ∃ c', ProcessESDtrack e self track step species centrality
          = some ([], { self with fHistos := some c' }) ∧
        c' ≠ c ∧
        c'.Get "tpcDedx" = some (d.Fill
          [(species : ℚ), (e.GetInnerParam track).getD (e.P track), e.GetTPCsignal track,
           (step.toInt : ℚ), centrality]) ∧
        c'.Get "tpcnSigma" = some (n.Fill
          [(species : ℚ), (e.GetInnerParam track).getD (e.P track),
           e.NumberOfSigmasTPC pid track AliPID.kElectron, (step.toInt : ℚ), centrality]) ∧
        ∀ other, other ≠ "tpcDedx" → other ≠ "tpcnSigma" → c'.Get other = c.Get other) := by
  constructor
  · intro hnone
    unfold ProcessESDtrack
    simp only [hnone]
  · intro pid c d n hpid hc hd hn
    have hp : (match e.GetInnerParam track with
        | some p => p
        | none => e.P track) = (e.GetInnerParam track).getD (e.P track) := by
      cases e.GetInnerParam track <;> rfl
    obtain ⟨c1, f1, g1, o1⟩ := AliHFEcollection.Fill_spec c "tpcDedx"
      [(species : ℚ), (e.GetInnerParam track).getD (e.P track), e.GetTPCsignal track,
       (step.toInt : ℚ), centrality] d hd
    have hn1 : c1.Get "tpcnSigma" = some n := by
      rw [o1 "tpcnSigma" (by decide)]
      exact hn
    obtain ⟨c2, f2, g2, o2⟩ := AliHFEcollection.Fill_spec c1 "tpcnSigma"
      [(species : ℚ), (e.GetInnerParam track).getD (e.P track),
       e.NumberOfSigmasTPC pid track AliPID.kElectron, (step.toInt : ℚ), centrality] n hn1
    have hd2 : c2.Get "tpcDedx" = some (d.Fill
        [(species : ℚ), (e.GetInnerParam track).getD (e.P track), e.GetTPCsignal track,
         (step.toInt : ℚ), centrality]) := by
      rw [o2 "tpcDedx" (by decide)]
      exact g1
    refine ⟨c2, ?_, ?_, hd2, g2, ?_⟩
    · unfold ProcessESDtrack
      simp only [hpid, hc, hp, f1, List.set_cons_succ, List.set_cons_zero, f2]
    · intro heq
      rw [heq, hd] at hd2
      simp only [Option.some.injEq] at hd2
      exact Fill_ne d _ hd2.symm
    · intro other h1 h2
      rw [o2 other h2, o1 other h1]

/-- Witness for C16: on the initialised sample object both histograms get one tuple, with
TPC signal 50 and number of sigmas 1/2 as the only difference. -/
theorem ProcessESDtrack_guarded_by_ESDpid_witness :
    ∃ c', ProcessESDtrack Samples.esdMethods Samples.tpcQAInit Samples.trdTrack
          EStep_t.kAfterPID 0 30
        = some ([], { Samples.tpcQAInit with fHistos := some c' }) ∧
      c'.Get "tpcDedx" = some { fills := [[0, 3, 50, 1, 30]] } ∧
      c'.Get "tpcnSigma" = some { fills := [[0, 3, 1/2, 1, 30]] } := by
  obtain ⟨c', h1, _, h3, h4, _⟩ :=
    (ProcessESDtrack_guarded_by_ESDpid Samples.esdMethods Samples.tpcQAInit Samples.trdTrack
      EStep_t.kAfterPID 0 30).2 { tag := 0 }
      { histos := [("tpcDedx", { fills := [] }), ("tpcnSigma", { fills := [] })] }
      { fills := [] } { fills := [] } rfl rfl (by decide) (by decide)
  refine ⟨c', h1, ?_, ?_⟩
  · rw [h3]
    simp [THnSparseF.Fill, Samples.esdMethods, EStep_t.toInt]
  · rw [h4]
    simp [THnSparseF.Fill, Samples.esdMethods, EStep_t.toInt]

end AliHFEtpcPIDqa

namespace AliHFEtpcPIDqa

/-! ## TPC spectra by species -/

/-- C15 (the code at the failing input): for species 0, the electron, and either selection
step, `MakeSpectrumdEdx` returns the spectrum named `hTPCsignal<step>electron` with the
title ending in `for electrons`, yet it has not put any range on the species axis before
projecting: the spectrum holds the entries of all species. `MakeSpectrumNSigma` restricts
the species axis to bin 2 for the same arguments. For the species 1 to 4 both methods
restrict the species axis to the bin `2 + species`. -/
theorem MakeSpectrumdEdx_electrons_unrestricted :
    (∀ istep : EStep_t,
      (MakeSpectrumdEdx Samples.proj Samples.ParticleName Samples.tpcQAInit istep 0).map
          (fun sp => sp.speciesRange) = some none ∧
      (MakeSpectrumNSigma Samples.proj Samples.ParticleName Samples.tpcQAInit istep 0).map
          (fun sp => sp.speciesRange) = some (some (2, 2))) ∧
    (MakeSpectrumdEdx Samples.proj Samples.ParticleName Samples.tpcQAInit
        EStep_t.kBeforePID 0).map (fun sp => (sp.name, sp.title, sp.stepRange))
      = some ("hTPCsignalbeforeelectron",
              "TPC dE/dx Spectrum before selection for electrons", (1, 1)) ∧
    (∀ (istep : EStep_t) (species : Int), 0 < species → species < 5 →
      (MakeSpectrumdEdx Samples.proj Samples.ParticleName Samples.tpcQAInit istep
          species).map (fun sp => sp.speciesRange) = some (some (2 + species, 2 + species)) ∧
      (MakeSpectrumNSigma Samples.proj Samples.ParticleName Samples.tpcQAInit istep
          species).map (fun sp => sp.speciesRange)
        = some (some (2 + species, 2 + species))) := by
  refine ⟨?_, by decide, ?_⟩
  · intro istep
    cases istep <;> exact ⟨by decide, by decide⟩
  · intro istep species h0 h5
    have hd : species > 0 ∧ species < AliPID.kSPECIES := ⟨h0, h5⟩
    have hn : species ≥ 0 ∧ species < AliPID.kSPECIES := ⟨le_of_lt h0, h5⟩
    have hgd : Samples.tpcQAInit.fHistos.bind (fun c => c.Get "tpcDedx")
        = some { fills := [] } := by decide
    have hgn : Samples.tpcQAInit.fHistos.bind (fun c => c.Get "tpcnSigma")
        = some { fills := [] } := by decide
    constructor
    · unfold MakeSpectrumdEdx
      simp only [hgd, if_pos hd, Option.map_some']
    · unfold MakeSpectrumNSigma
      simp only [hgn, if_pos hn, Option.map_some']

end AliHFEtpcPIDqa

/-! ## Filling the TRD histograms -/

namespace AliHFEtrdPIDqa

/-- The layer loop of `FillTRDQAplots` returns when `fQAdEdx` exists, and `fQAdEdx` then
still exists. -/
theorem FillTRDQAplots.planeLoop_returns (e : ESDMethods) (track : AliESDtrack)
    (species : Int) :
    ∀ (planes : List Nat) (st : PlaneState), st.fQAdEdx.isSome = true →
      ∃ st', planes.foldlM (FillTRDQAplots.planeStep e track species) st = some st' ∧
        st'.fQAdEdx.isSome = true := by
  intro planes
  induction planes with
  | nil => intro st h; exact ⟨st, rfl, h⟩
  | cons p ps ih =>
    intro st h
    obtain ⟨hq, hhq⟩ := Option.isSome_iff_exists.mp h
    have hstep : ∃ st1, FillTRDQAplots.planeStep e track species st p = some st1 ∧
        st1.fQAdEdx.isSome = true := by
      unfold FillTRDQAplots.planeStep
      simp only [hhq]
      split_ifs <;> exact ⟨_, rfl, rfl⟩
    obtain ⟨st1, h1, h1'⟩ := hstep
    obtain ⟨st2, h2, h2'⟩ := ih st1 h1'
    refine ⟨st2, ?_, h2'⟩
    simp only [List.foldlM, bind, Option.bind, h1]
    exact h2

/-- C20: `ProcessTrackESD` leaves the object, and with it every histogram, as it was for a
track whose status lacks the bit `kTRDout`. For a track that has the bit, on an object whose
four histograms and TRD PID object exist, it returns with exactly one tuple appended to the
likelihood histogram, one to the QA-track histogram and one to the truncated-mean histogram,
and the three tuples start with the same species, momentum (outer-parameter momentum when
available, else track momentum) and tracklet count. -/
theorem ProcessTrackESD_requires_TRD_track (e : ESDMethods) (self : AliHFEtrdPIDqa)
    (track : AliESDtrack) (species : Int) :
    ((e.GetStatus track) &&& AliESDtrack.kTRDout = 0 →
      ProcessTrackESD e self track species = some self) ∧
    (∀ (like qa dedx tm : THnSparseF) (pid : AliHFEpidTRD),
      (e.GetStatus track) &&& AliESDtrack.kTRDout ≠ 0 →
      self.fLikeTRD = some like → self.fQAtrack = some qa → self.fQAdEdx = some dedx →
      self.fTRDtruncMean = some tm → self.fTRDpid = some pid →
      ∃ s' xl xq xt, ProcessTrackESD e self track species = some s' ∧
        s'.fLikeTRD = some (like.Fill xl) ∧ s'.fQAtrack = some (qa.Fill xq) ∧
        s'.fTRDtruncMean = some (tm.Fill xt) ∧
        xl.take 3 = [(species : ℚ), (e.GetOuterParam track).getD (e.P track),
                     (e.GetTRDntrackletsPID track : ℚ)] ∧
        xq.take 3 = xl.take 3 ∧ xt.take 3 = xl.take 3) := by
  constructor
  · intro hbit
    unfold ProcessTrackESD
    rw [if_pos hbit]
  · intro like qa dedx tm pid hbit hlike hqa hdedx htm hpid
    have hmom : trackMomentum e track = (e.GetOuterParam track).getD (e.P track) := by
      unfold trackMomentum
      cases e.GetOuterParam track <;> rfl
    obtain ⟨st, hst, _⟩ := FillTRDQAplots.planeLoop_returns e track species
      (List.range AliESDtrack.kTRDnPlanes)
      { nSlicesNonZero := 0, ntrackletsNonZero := 0, fQAdEdx := some dedx } rfl
    refine ⟨{ self with
        fLikeTRD := some (like.Fill [(species : ℚ), trackMomentum e track,
          (e.GetTRDntrackletsPID track : ℚ), e.GetTRDpid track AliPID.kElectron]),
        fQAdEdx := st.fQAdEdx,
        fQAtrack := some (qa.Fill [(species : ℚ), trackMomentum e track,
          (e.GetTRDntrackletsPID track : ℚ), (st.ntrackletsNonZero : ℚ),
          (e.GetTRDncls track : ℚ)]),
        fTRDtruncMean := some (tm.Fill [(species : ℚ), trackMomentum e track,
          (e.GetTRDntrackletsPID track : ℚ), e.GetTPCsignal track,
          e.GetTRDSignalV1 pid track, e.GetTRDSignalV2 pid track]) },
      [(species : ℚ), trackMomentum e track, (e.GetTRDntrackletsPID track : ℚ),
        e.GetTRDpid track AliPID.kElectron],
      [(species : ℚ), trackMomentum e track, (e.GetTRDntrackletsPID track : ℚ),
        (st.ntrackletsNonZero : ℚ), (e.GetTRDncls track : ℚ)],
      [(species : ℚ), trackMomentum e track, (e.GetTRDntrackletsPID track : ℚ),
        e.GetTPCsignal track, e.GetTRDSignalV1 pid track, e.GetTRDSignalV2 pid track],
      ?_, ?_, ?_, ?_, ?_, ?_, ?_⟩
    · unfold ProcessTrackESD
      rw [if_neg hbit]
      unfold FillTRDLikelihoods
      simp only [hlike]
      unfold FillTRDQAplots
      simp only [hdedx, hst, hqa, hpid, htm]
    · rfl
    · rfl
    · rfl
    · simp [hmom]
    · rfl
    · rfl

end AliHFEtrdPIDqa

namespace AliHFEtrdPIDqa

/-- Witness for C20: on the sample QA object the track without `kTRDout` changes nothing,
and the TRD track gives one tuple to each of the three histograms, all starting with species
0, the outer-parameter momentum 4 and 6 tracklets. -/
theorem ProcessTrackESD_requires_TRD_track_witness :
    ProcessTrackESD Samples.esdMethods Samples.qa Samples.tpcOnlyTrack 0 = some Samples.qa ∧
    ∃ s' xl xq xt, ProcessTrackESD Samples.esdMethods Samples.qa Samples.trdTrack 0 = some s' ∧
      s'.fLikeTRD = some (THnSparseF.Fill { fills := [] } xl) ∧
      s'.fQAtrack = some (THnSparseF.Fill { fills := [] } xq) ∧
      s'.fTRDtruncMean = some (THnSparseF.Fill { fills := [] } xt) ∧
      xl.take 3 = [((0 : Int) : ℚ),
                   (Samples.esdMethods.GetOuterParam Samples.trdTrack).getD
                     (Samples.esdMethods.P Samples.trdTrack),
                   (Samples.esdMethods.GetTRDntrackletsPID Samples.trdTrack : ℚ)] ∧
      xq.take 3 = xl.take 3 ∧ xt.take 3 = xl.take 3 :=
  ⟨(ProcessTrackESD_requires_TRD_track Samples.esdMethods Samples.qa Samples.tpcOnlyTrack 0).1
      (by decide),
   (ProcessTrackESD_requires_TRD_track Samples.esdMethods Samples.qa Samples.trdTrack 0).2
      { fills := [] } { fills := [] } { fills := [] } { fills := [] } { name := "QAtrdPID" }
      (by decide) rfl rfl rfl rfl rfl⟩

end AliHFEtrdPIDqa
